import Mathlib

/-!
# Frame-update core of the ninja game (`game_logic.cpp`)

A shallow embedding of `src/app/src/main/cpp/game_logic.cpp`.

Conventions of the embedding:

* `float` values are rationals (`ℚ`). The three `float` operations whose result decides an
  integer or a branch of the spawn block round their exact result to binary32 (`f32`):
  `gameTime += dt`, `timeSinceLastSpawn += dt` and the product `dt * 10` that is cast to
  `int`. The other `float` operations (positions, cooldowns, lifetimes, distances) are exact;
  their rounding is not modelled.
* `int` values are unbounded integers (`Int`); a theorem that depends on the 32-bit range
  says so in its hypotheses (`inIntRange`).
* `std::sqrt` is a library function outside the repository: every definition that calls it
  takes it as the parameter `sqrt : ℚ → ℚ`, so each general theorem holds for every
  interpretation of the square root.  Closed evaluations instantiate it with `Rat.sqrt`.
* `rand()` is made explicit: `spawnEnemy` and `updateGameState` take the two draws
  `r0` (side) and `r1` (coordinate) as arguments.
* A `std::vector` is a `List`; a pointer into a pool is the index of the slot.
* In-place mutation is explicit state passing: each method returns the updated record.
-/

namespace Vortex

/-! ## Constants -/

def PLAYER_SPEED : ℚ := 300
def SHURIKEN_SPEED : ℚ := 500
def ENEMY_SPEED : ℚ := 150
def SPAWN_RATE : ℚ := 3 / 2
def MAX_ENEMIES : Int := 20
def MAX_SHURIKENS : Int := 10
def ATTACK_COOLDOWN : ℚ := 3 / 10

/-! ## Structs -/

structure Vector2 where
  x : ℚ := 0
  y : ℚ := 0
deriving DecidableEq

namespace Vector2

/-- The sum `operator+`. -/
def add (a other : Vector2) : Vector2 := ⟨a.x + other.x, a.y + other.y⟩

/-- The difference `operator-`. -/
def sub (a other : Vector2) : Vector2 := ⟨a.x - other.x, a.y - other.y⟩

/-- The product `operator*` with a scalar. -/
def mul (a : Vector2) (scalar : ℚ) : Vector2 := ⟨a.x * scalar, a.y * scalar⟩

def length (sqrt : ℚ → ℚ) (a : Vector2) : ℚ := sqrt (a.x * a.x + a.y * a.y)

def normalize (sqrt : ℚ → ℚ) (a : Vector2) : Vector2 :=
  let len := a.length sqrt
  if len > 0 then ⟨a.x / len, a.y / len⟩ else a

end Vector2

structure Ninja where
  position : Vector2 := {}
  velocity : Vector2 := {}
  health : Int := 100
  maxHealth : Int := 100
  attackCooldown : ℚ := 0
  isAlive : Bool := true
  kills : Int := 0
deriving DecidableEq

structure Shuriken where
  position : Vector2 := {}
  direction : Vector2 := {}
  active : Bool := false
  lifetime : ℚ := 2
deriving DecidableEq

structure Enemy where
  position : Vector2 := {}
  velocity : Vector2 := {}
  health : Int := 30
  maxHealth : Int := 30
  active : Bool := false
  damageCooldown : ℚ := 0
deriving DecidableEq

structure GameState where
  player : Ninja := {}
  shurikens : List Shuriken := []
  enemies : List Enemy := []
  score : Int := 0
  timeSinceLastSpawn : ℚ := 0
  gameTime : ℚ := 0
  isGameOver : Bool := false
  worldWidth : ℚ := 1600
  worldHeight : ℚ := 900
deriving DecidableEq

/-- The library function `std::clamp(v, lo, hi)`: `lo` when `v < lo`, `hi` when `hi < v`, else `v`. -/
def clamp (v lo hi : ℚ) : ℚ := if v < lo then lo else if hi < v then hi else v

/-- The conversion `(int) f` of a float: truncation toward zero. -/
def floatToInt (f : ℚ) : Int := if 0 ≤ f then ⌊f⌋ else ⌈f⌉

/-- The quotient `n / d` of two naturals (`d > 0`) rounded to the nearest natural, ties to
the even one. -/
def roundHalfEven (n d : Nat) : Nat :=
  let q := n / d
  let r := n % d
  if 2 * r < d then q else if d < 2 * r then q + 1 else if q % 2 = 0 then q else q + 1

/-- The index of the highest set bit of `n` (0 for `n < 2`), by halving; `fuel = n` is
enough. -/
def bitIndex : Nat → Nat → Nat
  | 0, _ => 0
  | fuel + 1, n => if n < 2 then 0 else bitIndex fuel (n / 2) + 1

/-- The binary exponent of the positive rational `n / d`: the `e` with
`2 ^ e ≤ n / d < 2 ^ (e + 1)`. -/
def binaryExponent (n d : Nat) : Int :=
  let e0 : Int := (bitIndex n n : Int) - (bitIndex d d : Int)
  if (if 0 ≤ e0 then n < d * 2 ^ e0.toNat else n * 2 ^ (-e0).toNat < d) then e0 - 1 else e0

/-- The rounding of an exact result to `float` (IEEE binary32, round to nearest, ties to
even): 24 significand bits, subnormal numbers below `2 ^ (-126)`. It is what a `float`
addition or multiplication does to the exact sum or product of its operands. Overflow to
infinity (results from `2 ^ 128` on) and NaN are not modelled. -/
def f32 (q : ℚ) : ℚ :=
  if q = 0 then 0 else
  let n := q.num.natAbs
  let d := q.den
  let e := max (binaryExponent n d) (-126)
  let s : Int := 23 - e
  let m : Nat :=
    if 0 ≤ s then roundHalfEven (n * 2 ^ s.toNat) d else roundHalfEven n (d * 2 ^ (-s).toNat)
  let mag : ℚ :=
    if 0 ≤ s then (m : ℚ) / ((2 ^ s.toNat : Nat) : ℚ) else ((m * 2 ^ (-s).toNat : Nat) : ℚ)
  if q < 0 then -mag else mag

/-! ## Ninja methods -/

def Ninja.update (self : Ninja) (dt : ℚ) (state : GameState) : Ninja :=
  if !self.isAlive then self else
  let position := self.position.add (self.velocity.mul dt)
  let position : Vector2 :=
    { x := clamp position.x 0 state.worldWidth, y := clamp position.y 0 state.worldHeight }
  let attackCooldown :=
    if self.attackCooldown > 0 then self.attackCooldown - dt else self.attackCooldown
  { self with position := position, attackCooldown := attackCooldown }

def Ninja.takeDamage (self : Ninja) (amount : Int) : Ninja :=
  if !self.isAlive then self else
  let health := self.health - amount
  if health ≤ 0 then { self with health := 0, isAlive := false }
  else { self with health := health }

def Ninja.reset (self : Ninja) : Ninja :=
  { self with
    position := ⟨400, 300⟩
    velocity := ⟨0, 0⟩
    health := self.maxHealth
    isAlive := true
    kills := 0
    attackCooldown := 0 }

/-! ## Shuriken methods -/

def Shuriken.update (self : Shuriken) (dt : ℚ) : Shuriken :=
  if !self.active then self else
  let position := self.position.add ((self.direction.mul SHURIKEN_SPEED).mul dt)
  let lifetime := self.lifetime - dt
  { self with
    position := position
    lifetime := lifetime
    active := if lifetime ≤ 0 then false else self.active }

def Shuriken.isOutOfBounds (self : Shuriken) (worldWidth worldHeight : ℚ) : Bool :=
  decide (self.position.x < 0) || decide (self.position.x > worldWidth) ||
    decide (self.position.y < 0) || decide (self.position.y > worldHeight)

/-! ## Enemy methods -/

def Enemy.isCollidingWithNinja (sqrt : ℚ → ℚ) (self : Enemy) (ninja : Ninja) : Bool :=
  if !ninja.isAlive then false else
  let dx := self.position.x - ninja.position.x
  let dy := self.position.y - ninja.position.y
  let distance := sqrt (dx * dx + dy * dy)
  decide (distance < 40)

def Enemy.update (sqrt : ℚ → ℚ) (self : Enemy) (dt : ℚ) (ninja : Ninja) (state : GameState) :
    Enemy :=
  if !self.active then self else
  -- Move towards ninja
  let toNinja := ninja.position.sub self.position
  let distance := toNinja.length sqrt
  let self : Enemy :=
    if distance > 0 then
      let toNinja := toNinja.normalize sqrt
      let velocity := toNinja.mul ENEMY_SPEED
      { self with velocity := velocity, position := self.position.add (velocity.mul dt) }
    else self
  -- Check collision with ninja
  let self : Enemy :=
    if self.isCollidingWithNinja sqrt ninja && decide (self.damageCooldown ≤ 0) then
      { self with damageCooldown := 1 }
    else self
  let self : Enemy :=
    if self.damageCooldown > 0 then { self with damageCooldown := self.damageCooldown - dt }
    else self
  -- Deactivate if out of bounds
  if self.position.x < -100 ∨ self.position.x > state.worldWidth + 100 ∨
      self.position.y < -100 ∨ self.position.y > state.worldHeight + 100 then
    { self with active := false }
  else self

def Enemy.takeDamage (self : Enemy) (amount : Int) : Enemy :=
  let health := self.health - amount
  if health ≤ 0 then { self with health := 0, active := false }
  else { self with health := health }

/-! ## Game state methods -/

def GameState.reset (self : GameState) : GameState :=
  { self with
    player := self.player.reset
    score := 0
    gameTime := 0
    timeSinceLastSpawn := 0
    isGameOver := false
    shurikens := self.shurikens.map (fun shuriken => { shuriken with active := false })
    enemies := self.enemies.map (fun enemy => { enemy with active := false }) }

/-- The scan of `getAvailableShuriken`: the index of the first slot that is not active. -/
def firstInactiveShuriken : List Shuriken → Option Nat
  | [] => none
  | shuriken :: rest =>
    if !shuriken.active then some 0 else (firstInactiveShuriken rest).map (· + 1)

/-- The scan of `getAvailableEnemy`: the index of the first slot that is not active. -/
def firstInactiveEnemy : List Enemy → Option Nat
  | [] => none
  | enemy :: rest =>
    if !enemy.active then some 0 else (firstInactiveEnemy rest).map (· + 1)

/-- The returned pointer is the index of the slot; `nullptr` is `none`. -/
def GameState.getAvailableShuriken (self : GameState) : Option Nat :=
  firstInactiveShuriken self.shurikens

/-- The returned pointer is the index of the slot; `nullptr` is `none`. -/
def GameState.getAvailableEnemy (self : GameState) : Option Nat :=
  firstInactiveEnemy self.enemies

/-- The body of `spawnEnemy` after the null check, on the slot `enemy` points to.
`r0` and `r1` are the values of the first and second call of `rand()`. The remainder is
the truncated one of C++ (`Int.tmod`); for a world bound that converts to `0` the C++
remainder is undefined and `Int.tmod` returns `r1`. -/
def spawnAt (r0 r1 : Nat) (worldWidth worldHeight : ℚ) (enemy : Enemy) : Enemy :=
  let side : Int := Int.tmod r0 4
  let enemy : Enemy :=
    if side = 0 then
      { enemy with position := ⟨(Int.tmod r1 (floatToInt worldWidth) : Int), -50⟩ }
    else if side = 1 then
      { enemy with position := ⟨worldWidth + 50, (Int.tmod r1 (floatToInt worldHeight) : Int)⟩ }
    else if side = 2 then
      { enemy with position := ⟨(Int.tmod r1 (floatToInt worldWidth) : Int), worldHeight + 50⟩ }
    else if side = 3 then
      { enemy with position := ⟨-50, (Int.tmod r1 (floatToInt worldHeight) : Int)⟩ }
    else enemy
  { enemy with health := enemy.maxHealth, active := true, damageCooldown := 0 }

def GameState.spawnEnemy (self : GameState) (r0 r1 : Nat) : GameState :=
  match self.getAvailableEnemy with
  | none => self
  | some i =>
    match self.enemies[i]? with
    | none => self
    | some enemy =>
      { self with enemies := self.enemies.set i (spawnAt r0 r1 self.worldWidth self.worldHeight enemy) }

/-- The constructor `GameState()`: default member values, both pools resized, then `reset()`. -/
def GameState.new : GameState :=
  GameState.reset
    { shurikens := List.replicate MAX_SHURIKENS.toNat {}
      enemies := List.replicate MAX_ENEMIES.toNat {} }

/-! ## Main update function -/

/-- The block "Handle attack" of `updateGameState`. -/
def handleAttack (sqrt : ℚ → ℚ) (state : GameState) (inputDirection : Vector2)
    (wantsToAttack : Bool) : GameState :=
  if wantsToAttack && decide (state.player.attackCooldown ≤ 0) && state.player.isAlive then
    match state.getAvailableShuriken with
    | none => state
    | some i =>
      let direction : Vector2 :=
        if inputDirection.length sqrt > 0 then inputDirection.normalize sqrt else ⟨1, 0⟩
      let shuriken : Shuriken :=
        { position := state.player.position, direction := direction, active := true, lifetime := 2 }
      { state with
        shurikens := state.shurikens.set i shuriken
        player := { state.player with attackCooldown := ATTACK_COOLDOWN } }
  else state

/-- The inner loop "Check collision with enemies" for a shuriken at `position`: the enemies
after the loop, whether a hit took place (the shuriken is then deactivated), and whether the
enemy that was hit is no longer active (a kill is then credited). The loop stops at the first
hit (`break`). -/
def hitScan (sqrt : ℚ → ℚ) (position : Vector2) : List Enemy → List Enemy × Bool × Bool
  | [] => ([], false, false)
  | enemy :: rest =>
    if !enemy.active then
      let r := hitScan sqrt position rest
      (enemy :: r.1, r.2.1, r.2.2)
    else
      let dx := position.x - enemy.position.x
      let dy := position.y - enemy.position.y
      let distance := sqrt (dx * dx + dy * dy)
      if distance < 25 then
        let enemy := enemy.takeDamage 10
        (enemy :: rest, true, !enemy.active)
      else
        let r := hitScan sqrt position rest
        (enemy :: r.1, r.2.1, r.2.2)

/-- One iteration of the loop "Update shurikens and check collisions": the slot after the
iteration and the state (enemies, kills, score) after it. -/
def shurikenStep (sqrt : ℚ → ℚ) (dt : ℚ) (shuriken : Shuriken) (state : GameState) :
    Shuriken × GameState :=
  if !shuriken.active then (shuriken, state) else
  let shuriken := shuriken.update dt
  if shuriken.isOutOfBounds state.worldWidth state.worldHeight then
    ({ shuriken with active := false }, state)
  else
    let r := hitScan sqrt shuriken.position state.enemies
    let shuriken : Shuriken := if r.2.1 then { shuriken with active := false } else shuriken
    let state : GameState := { state with enemies := r.1 }
    let state : GameState :=
      if r.2.2 then
        { state with
          player := { state.player with kills := state.player.kills + 1 }
          score := state.score + 100 }
      else state
    (shuriken, state)

/-- The loop over `state.shurikens`, in pool order, on the slots still to visit. -/
def shurikenLoop (sqrt : ℚ → ℚ) (dt : ℚ) : List Shuriken → GameState → List Shuriken × GameState
  | [], state => ([], state)
  | shuriken :: rest, state =>
    let r := shurikenStep sqrt dt shuriken state
    let r2 := shurikenLoop sqrt dt rest r.2
    (r.1 :: r2.1, r2.2)

/-- The block "Update shurikens and check collisions" of `updateGameState`. -/
def updateShurikens (sqrt : ℚ → ℚ) (state : GameState) (dt : ℚ) : GameState :=
  let r := shurikenLoop sqrt dt state.shurikens state
  { r.2 with shurikens := r.1 }

/-- One iteration of the loop "Update enemies and check collisions with player": the slot,
the state (player) and the tally `activeEnemies` after the iteration. -/
def enemyStep (sqrt : ℚ → ℚ) (dt : ℚ) (enemy : Enemy) (state : GameState) (activeEnemies : Int) :
    Enemy × GameState × Int :=
  if !enemy.active then (enemy, state, activeEnemies) else
  let enemy := enemy.update sqrt dt state.player state
  let r : Enemy × GameState :=
    if enemy.isCollidingWithNinja sqrt state.player && decide (enemy.damageCooldown ≤ 0) then
      ({ enemy with damageCooldown := 1 }, { state with player := state.player.takeDamage 10 })
    else (enemy, state)
  (r.1, r.2, if r.1.active then activeEnemies + 1 else activeEnemies)

/-- The loop over `state.enemies`, in pool order, on the slots still to visit. -/
def enemyLoop (sqrt : ℚ → ℚ) (dt : ℚ) :
    List Enemy → GameState → Int → List Enemy × GameState × Int
  | [], state, activeEnemies => ([], state, activeEnemies)
  | enemy :: rest, state, activeEnemies =>
    let r := enemyStep sqrt dt enemy state activeEnemies
    let r2 := enemyLoop sqrt dt rest r.2.1 r.2.2
    (r.1 :: r2.1, r2.2.1, r2.2.2)

/-- The block "Update enemies and check collisions with player": the state after the loop
and the value of `activeEnemies`. -/
def updateEnemies (sqrt : ℚ → ℚ) (state : GameState) (dt : ℚ) : GameState × Int :=
  let r := enemyLoop sqrt dt state.enemies state 0
  ({ r.2.1 with enemies := r.1 }, r.2.2)

/-- The block "Spawn new enemies" of `updateGameState`; the accumulator holds the `float` sum
`timeSinceLastSpawn + dt`. -/
def spawnPhase (r0 r1 : Nat) (state : GameState) (dt : ℚ) (activeEnemies : Int) : GameState :=
  let state : GameState :=
    { state with timeSinceLastSpawn := f32 (state.timeSinceLastSpawn + dt) }
  if state.timeSinceLastSpawn ≥ SPAWN_RATE ∧ activeEnemies < MAX_ENEMIES then
    let state := state.spawnEnemy r0 r1
    let state : GameState := { state with timeSinceLastSpawn := 0 }
    if state.gameTime > 30 then { state with timeSinceLastSpawn := -(1 / 2) } else state
  else state

/-- The block "Update player" of `updateGameState`, after `gameTime` is advanced. -/
def updatePlayer (state : GameState) (dt : ℚ) (inputDirection : Vector2) : GameState :=
  let state : GameState :=
    { state with player := { state.player with velocity := inputDirection.mul PLAYER_SPEED } }
  { state with player := state.player.update dt state }

/-- The blocks "Check game over" and "Bonus score for surviving"; `dt * 10` is the `float`
product. -/
def finishFrame (state : GameState) (dt : ℚ) : GameState :=
  let state : GameState := if !state.player.isAlive then { state with isGameOver := true } else state
  { state with score := state.score + floatToInt (f32 (dt * 10)) }

set_option linter.unusedVariables false in
def updateGameState (sqrt : ℚ → ℚ) (r0 r1 : Nat) (state : GameState) (dt : ℚ)
    (inputDirection : Vector2) (wantsToAttack : Bool) (wantsToDash : Bool) : GameState :=
  if state.isGameOver then state else
  let state : GameState := { state with gameTime := f32 (state.gameTime + dt) }
  let state := updatePlayer state dt inputDirection
  let state := handleAttack sqrt state inputDirection wantsToAttack
  let state := updateShurikens sqrt state dt
  let r := updateEnemies sqrt state dt
  let state := spawnPhase r0 r1 r.1 dt r.2
  finishFrame state dt

/-! ## Sessions: sequences of calls -/

/-- The arguments of one call of `updateGameState`, with the two draws of `rand()`. -/
structure Frame where
  dt : ℚ
  inputDirection : Vector2
  wantsToAttack : Bool
  wantsToDash : Bool
  r0 : Nat
  r1 : Nat

/-- A call the host can make on a session. -/
inductive Call where
  | frame (f : Frame)
  | reset

def Call.apply (sqrt : ℚ → ℚ) (state : GameState) : Call → GameState
  | .frame f => updateGameState sqrt f.r0 f.r1 state f.dt f.inputDirection f.wantsToAttack f.wantsToDash
  | .reset => state.reset

/-- The state after the calls of `calls`, in order, from `state`. -/
def runCalls (sqrt : ℚ → ℚ) (state : GameState) (calls : List Call) : GameState :=
  calls.foldl (Call.apply sqrt) state

/-- The number of active shuriken slots. -/
def activeShurikens (state : GameState) : Nat := state.shurikens.countP (fun s => s.active)

/-- The number of active enemy slots. -/
def activeEnemies (state : GameState) : Nat := state.enemies.countP (fun e => e.active)

/-- The player health invariant: health within `[0, maxHealth]`, and health `0` means dead. -/
def HealthInv (p : Ninja) : Prop :=
  0 ≤ p.health ∧ p.health ≤ p.maxHealth ∧ (p.health = 0 → p.isAlive = false)

instance (p : Ninja) : Decidable (HealthInv p) := by unfold HealthInv; infer_instance

/-! ## Auxiliary definitions for the statements and proofs -/

/-- The call `takeDamage(10)` repeated `n` times. -/
def hits (n : Nat) (p : Ninja) : Ninja := (fun q => q.takeDamage 10)^[n] p

/-- The player after the block "Update player" of a frame. -/
def movedPlayer (s : GameState) (dt : ℚ) (inputDirection : Vector2) : Ninja :=
  (updatePlayer { s with gameTime := f32 (s.gameTime + dt) } dt inputDirection).player

/-- A session with all 10 shuriken slots in flight. -/
def saturatedState : GameState :=
  { GameState.new with shurikens := List.replicate 10 { active := true } }

/-- A session whose player has health 15 and is touched by two enemies whose damage cooldown
counts down to 0 within a frame of `dt = 1/2`. -/
def crowdedState : GameState :=
  { GameState.new with
    player := { GameState.new.player with health := 15 }
    enemies :=
      { position := ⟨400, 300⟩, active := true, damageCooldown := 1 / 2 } ::
      { position := ⟨400, 300⟩, active := true, damageCooldown := 1 / 4 } ::
      List.replicate 18 {} }

/-- The session of the contact example: the constructed session (player at `(400, 300)`,
health 100) with one active enemy at the player's position whose damage cooldown is 0. -/
def contactState : GameState :=
  { GameState.new with
    enemies := { position := ⟨400, 300⟩, active := true, damageCooldown := 0 } ::
      List.replicate 19 {} }

/-- The first block of `Enemy::update`, "Move towards ninja", on an active enemy. -/
def Enemy.pursue (sqrt : ℚ → ℚ) (self : Enemy) (dt : ℚ) (ninja : Ninja) : Enemy :=
  if (ninja.position.sub self.position).length sqrt > 0 then
    { self with
      velocity := ((ninja.position.sub self.position).normalize sqrt).mul ENEMY_SPEED
      position := self.position.add
        ((((ninja.position.sub self.position).normalize sqrt).mul ENEMY_SPEED).mul dt) }
  else self

/-- The blocks of `Enemy::update` after the pursuit, on the moved enemy `m`. -/
def Enemy.afterPursue (sqrt : ℚ → ℚ) (m : Enemy) (dt : ℚ) (ninja : Ninja) (state : GameState) :
    Enemy :=
  let a : Enemy :=
    if m.isCollidingWithNinja sqrt ninja && decide (m.damageCooldown ≤ 0) then
      { m with damageCooldown := 1 }
    else m
  let t : Enemy :=
    if a.damageCooldown > 0 then { a with damageCooldown := a.damageCooldown - dt } else a
  if t.position.x < -100 ∨ t.position.x > state.worldWidth + 100 ∨
      t.position.y < -100 ∨ t.position.y > state.worldHeight + 100 then
    { t with active := false }
  else t

/-- The test of `Shuriken::isOutOfBounds` negated: the position lies in the world rectangle. -/
def inWorld (position : Vector2) (worldWidth worldHeight : ℚ) : Prop :=
  0 ≤ position.x ∧ position.x ≤ worldWidth ∧ 0 ≤ position.y ∧ position.y ≤ worldHeight

/-- A session with a shuriken in slot 0 that flies right from `(1595, 300)`, leaving the
world in a frame of `1/60`, and a shuriken in slot 1 with lifetime `1/100`. -/
def flightState : GameState :=
  { GameState.new with
    shurikens :=
      { position := ⟨1595, 300⟩, direction := ⟨1, 0⟩, active := true, lifetime := 1 } ::
      { position := ⟨100, 100⟩, direction := ⟨0, 1⟩, active := true, lifetime := 1 / 100 } ::
      List.replicate 8 {} }

/-- The test of the loop "Check collision with enemies" on one enemy: the enemy is active and
its distance from `position` is below the hit radius 25. -/
def inHitRange (sqrt : ℚ → ℚ) (position : Vector2) (enemy : Enemy) : Bool :=
  enemy.active &&
    decide (sqrt ((position.x - enemy.position.x) * (position.x - enemy.position.x) +
      (position.y - enemy.position.y) * (position.y - enemy.position.y)) < 25)

/-- A session with the player at `(105, 100)` and a shuriken that reaches that point in a
frame of `1/100`; an inactive enemy at that point in slot 0, an active enemy of health 10 at
distance 15 in slot 1 and an active enemy at distance 0 in slot 2. -/
def twoTargetsState : GameState :=
  { GameState.new with
    player := { GameState.new.player with position := ⟨105, 100⟩ }
    shurikens :=
      { position := ⟨100, 100⟩, direction := ⟨1, 0⟩, active := true, lifetime := 1 } ::
      List.replicate 9 {}
    enemies :=
      { position := ⟨105, 100⟩, active := false } ::
      { position := ⟨120, 100⟩, health := 10, active := true } ::
      { position := ⟨105, 100⟩, active := true } ::
      List.replicate 17 {} }

/-- A session with a shuriken of lifetime `1/100` next to an active enemy of health 10. -/
def lastGaspState : GameState :=
  { GameState.new with
    shurikens :=
      { position := ⟨100, 100⟩, direction := ⟨1, 0⟩, active := true, lifetime := 1 / 100 } ::
      List.replicate 9 {}
    enemies :=
      { position := ⟨110, 100⟩, health := 10, active := true } :: List.replicate 19 {} }

/-- The state after the block "Handle attack" of a frame on a running session. -/
def afterAttack (sqrt : ℚ → ℚ) (s : GameState) (dt : ℚ) (inputDirection : Vector2)
    (wantsToAttack : Bool) : GameState :=
  handleAttack sqrt (updatePlayer { s with gameTime := f32 (s.gameTime + dt) } dt inputDirection)
    inputDirection wantsToAttack

/-- The state after the block "Update shurikens and check collisions". -/
def afterProjectiles (sqrt : ℚ → ℚ) (s : GameState) (dt : ℚ) (inputDirection : Vector2)
    (wantsToAttack : Bool) : GameState :=
  updateShurikens sqrt (afterAttack sqrt s dt inputDirection wantsToAttack) dt

/-- The state after the block "Update enemies and check collisions with player". -/
def afterEnemyPass (sqrt : ℚ → ℚ) (s : GameState) (dt : ℚ) (inputDirection : Vector2)
    (wantsToAttack : Bool) : GameState :=
  (updateEnemies sqrt (afterProjectiles sqrt s dt inputDirection wantsToAttack) dt).1

/-- The value of the local variable `activeEnemies` when the spawn block is reached. -/
def enemyTally (sqrt : ℚ → ℚ) (s : GameState) (dt : ℚ) (inputDirection : Vector2)
    (wantsToAttack : Bool) : Int :=
  (updateEnemies sqrt (afterProjectiles sqrt s dt inputDirection wantsToAttack) dt).2

/-- The number of active slots of an enemy pool. -/
def countActive (l : List Enemy) : Nat := l.countP (fun e => e.active)

/-- The number of slots that are active in `before` and inactive in `after`. -/
def deactivated (before after : List Enemy) : Nat :=
  (List.zip before after).countP (fun p => p.1.active && !p.2.active)

/-- No slot is active in `after` that was inactive in `before`. -/
def NoRevive (before after : List Enemy) : Prop :=
  List.Forall₂ (fun b a : Enemy => a.active = true → b.active = true) before after

/-- What the projectile block keeps between two of its states: the score grows by 100 per
kill, the kills are the drop of the active count, and no enemy is revived. -/
def KillAccount (st st2 : GameState) : Prop :=
  st2.score - st.score = 100 * (st2.player.kills - st.player.kills) ∧
  st2.player.kills - st.player.kills =
    (countActive st.enemies : Int) - (countActive st2.enemies : Int) ∧
  NoRevive st.enemies st2.enemies

/-- A session one frame before a spawn: the accumulator stands at `1.49`, every enemy slot is
inactive. With `late = true` the game time is already `40`. -/
def spawnDueState (late : Bool) : GameState :=
  { GameState.new with
    timeSinceLastSpawn := 149 / 100
    gameTime := if late then 40 else 10 }

/-- The values of the type `int` (32 bits, two's complement). -/
def inIntRange (z : Int) : Prop := -2147483648 ≤ z ∧ z ≤ 2147483647

instance (z : Int) : Decidable (inIntRange z) := by unfold inIntRange; infer_instance

/-- The rational `q` is within the range of the finite `float` values: a `float` result that
rounds to such a `q` has not overflowed to infinity. -/
def isFiniteFloat (q : ℚ) : Prop :=
  -340282366920938463463374607431768211456 < q ∧ q < 340282366920938463463374607431768211456

instance (q : ℚ) : Decidable (isFiniteFloat q) := by unfold isFiniteFloat; infer_instance

/-- The constructed session with the spawn accumulator at the `float` just below `1.5`,
which is `1.5 - 2 ^ (-23)`. -/
def spawnEdgeState : GameState :=
  { GameState.new with timeSinceLastSpawn := 12582911 / 8388608 }

/-- The `float` value of `1.0f / 60.0f`. -/
def dt60 : ℚ := 8947849 / 536870912

/-- A session of `n` frames of `1.0f / 60.0f` with no input. -/
def idleFrames (n : Nat) : List Call :=
  List.replicate n (Call.frame ⟨dt60, ⟨0, 0⟩, false, false, 0, 0⟩)

/-! ## What each block of the frame leaves untouched -/

theorem firstInactiveShuriken_eq_none (l : List Shuriken) :
    firstInactiveShuriken l = none ↔ ∀ sh ∈ l, sh.active = true := by
  induction l with
  | nil => simp [firstInactiveShuriken]
  | cons a rest ih =>
    cases ha : a.active <;> simp [firstInactiveShuriken, ha, ih]

theorem hitScan_length (sqrt : ℚ → ℚ) (pos : Vector2) (l : List Enemy) :
    (hitScan sqrt pos l).1.length = l.length := by
  induction l with
  | nil => rfl
  | cons e rest ih =>
    simp only [hitScan]
    split_ifs <;> simp [ih]

/-- The shuriken loop body changes, in the state, only the enemies (not their number), the
kill counter and the score. -/
theorem shurikenStep_state (sqrt : ℚ → ℚ) (dt : ℚ) (sh : Shuriken) (st : GameState) :
    ∃ es k sc, (shurikenStep sqrt dt sh st).2 =
        { st with enemies := es, player := { st.player with kills := k }, score := sc } ∧
      es.length = st.enemies.length := by
  simp only [shurikenStep]
  split_ifs <;>
    first
    | exact ⟨_, _, _, rfl, rfl⟩
    | exact ⟨_, _, _, rfl, hitScan_length _ _ _⟩

theorem shurikenLoop_state (sqrt : ℚ → ℚ) (dt : ℚ) (l : List Shuriken) (st : GameState) :
    ∃ es k sc, (shurikenLoop sqrt dt l st).2 =
        { st with enemies := es, player := { st.player with kills := k }, score := sc } ∧
      es.length = st.enemies.length := by
  induction l generalizing st with
  | nil => exact ⟨_, _, _, rfl, rfl⟩
  | cons sh rest ih =>
    obtain ⟨es, k, sc, h1, hl1⟩ := shurikenStep_state sqrt dt sh st
    obtain ⟨es2, k2, sc2, h2, hl2⟩ := ih (shurikenStep sqrt dt sh st).2
    refine ⟨es2, k2, sc2, ?_, ?_⟩
    · simp only [shurikenLoop]
      rw [h2, h1]
    · rw [hl2, h1]
      exact hl1

theorem shurikenLoop_length (sqrt : ℚ → ℚ) (dt : ℚ) (l : List Shuriken) (st : GameState) :
    (shurikenLoop sqrt dt l st).1.length = l.length := by
  induction l generalizing st with
  | nil => rfl
  | cons sh rest ih => simp [shurikenLoop, ih]

/-- The block that advances the shurikens changes only the two pools (not their lengths),
the kill counter and the score. -/
theorem updateShurikens_eq (sqrt : ℚ → ℚ) (st : GameState) (dt : ℚ) :
    ∃ ss es k sc, updateShurikens sqrt st dt =
        { st with shurikens := ss, enemies := es, player := { st.player with kills := k },
                  score := sc } ∧
      ss = (shurikenLoop sqrt dt st.shurikens st).1 ∧
      ss.length = st.shurikens.length ∧ es.length = st.enemies.length := by
  obtain ⟨es, k, sc, h, hl⟩ := shurikenLoop_state sqrt dt st.shurikens st
  refine ⟨_, es, k, sc, ?_, rfl, shurikenLoop_length _ _ _ _, hl⟩
  simp only [updateShurikens]
  rw [h]

theorem hits_succ (n : Nat) (p : Ninja) : hits n (p.takeDamage 10) = hits (n + 1) p := by
  simp [hits, Function.iterate_succ_apply]

theorem enemyStep_state (sqrt : ℚ → ℚ) (dt : ℚ) (e : Enemy) (st : GameState) (c : Int) :
    ∃ n, (enemyStep sqrt dt e st c).2.1 = { st with player := hits n st.player } := by
  simp only [enemyStep]
  split_ifs <;>
    first
    | exact ⟨0, rfl⟩
    | exact ⟨1, rfl⟩

/-- The enemy loop changes, in the state, only the player, and the player only by calls of
`takeDamage(10)`. -/
theorem enemyLoop_state (sqrt : ℚ → ℚ) (dt : ℚ) (l : List Enemy) (st : GameState) (c : Int) :
    ∃ n, (enemyLoop sqrt dt l st c).2.1 = { st with player := hits n st.player } := by
  induction l generalizing st c with
  | nil => exact ⟨0, rfl⟩
  | cons e rest ih =>
    obtain ⟨n1, h1⟩ := enemyStep_state sqrt dt e st c
    obtain ⟨n2, h2⟩ := ih (enemyStep sqrt dt e st c).2.1 (enemyStep sqrt dt e st c).2.2
    refine ⟨n2 + n1, ?_⟩
    simp only [enemyLoop]
    rw [h2, h1]
    simp [hits, Function.iterate_add_apply]

theorem enemyLoop_length (sqrt : ℚ → ℚ) (dt : ℚ) (l : List Enemy) (st : GameState) (c : Int) :
    (enemyLoop sqrt dt l st c).1.length = l.length := by
  induction l generalizing st c with
  | nil => rfl
  | cons e rest ih => simp [enemyLoop, ih]

theorem updateEnemies_eq (sqrt : ℚ → ℚ) (st : GameState) (dt : ℚ) :
    ∃ es n, (updateEnemies sqrt st dt).1 = { st with enemies := es, player := hits n st.player } ∧
      es.length = st.enemies.length := by
  obtain ⟨n, h⟩ := enemyLoop_state sqrt dt st.enemies st 0
  refine ⟨_, n, ?_, enemyLoop_length sqrt dt st.enemies st 0⟩
  simp only [updateEnemies]
  rw [h]

theorem spawnEnemy_eq (st : GameState) (r0 r1 : Nat) :
    ∃ es, st.spawnEnemy r0 r1 = { st with enemies := es } ∧ es.length = st.enemies.length := by
  simp only [GameState.spawnEnemy]
  split
  · exact ⟨_, rfl, rfl⟩
  · split
    · exact ⟨_, rfl, rfl⟩
    · exact ⟨_, rfl, by simp⟩

theorem spawnPhase_eq (r0 r1 : Nat) (st : GameState) (dt : ℚ) (c : Int) :
    ∃ es t, spawnPhase r0 r1 st dt c = { st with enemies := es, timeSinceLastSpawn := t } ∧
      es.length = st.enemies.length := by
  obtain ⟨es, h, hl⟩ :=
    spawnEnemy_eq { st with timeSinceLastSpawn := f32 (st.timeSinceLastSpawn + dt) } r0 r1
  simp only [spawnPhase]
  split_ifs
  · rw [h]; exact ⟨_, _, rfl, hl⟩
  · rw [h]; exact ⟨_, _, rfl, hl⟩
  · exact ⟨_, _, rfl, rfl⟩

theorem handleAttack_eq (sqrt : ℚ → ℚ) (st : GameState) (dir : Vector2) (a : Bool) :
    ∃ ss c, handleAttack sqrt st dir a =
        { st with shurikens := ss, player := { st.player with attackCooldown := c } } ∧
      ss.length = st.shurikens.length ∧ (c = st.player.attackCooldown ∨ c = ATTACK_COOLDOWN) := by
  simp only [handleAttack]
  split_ifs
  · cases st.getAvailableShuriken with
    | none => exact ⟨_, _, rfl, rfl, Or.inl rfl⟩
    | some i => exact ⟨_, _, rfl, by simp, Or.inr rfl⟩
  · cases st.getAvailableShuriken with
    | none => exact ⟨_, _, rfl, rfl, Or.inl rfl⟩
    | some i => exact ⟨_, _, rfl, by simp, Or.inr rfl⟩
  · exact ⟨_, _, rfl, rfl, Or.inl rfl⟩

/-! ## Damage to the player -/

theorem takeDamage_of_dead (p : Ninja) (amount : Int) (h : p.isAlive = false) :
    p.takeDamage amount = p := by
  simp [Ninja.takeDamage, h]

theorem takeDamage_healthInv (p : Ninja) (amount : Int) (ha : 0 ≤ amount) (h : HealthInv p) :
    HealthInv (p.takeDamage amount) := by
  obtain ⟨h0, h1, h2⟩ := h
  simp only [Ninja.takeDamage]
  split_ifs with hd hle
  · exact ⟨h0, h1, h2⟩
  · exact ⟨le_refl _, le_trans h0 h1, fun _ => rfl⟩
  · refine ⟨?_, ?_, ?_⟩
    · show 0 ≤ p.health - amount
      omega
    · show p.health - amount ≤ p.maxHealth
      omega
    · intro hz
      have : p.health - amount = 0 := hz
      omega

/-- What `takeDamage` never touches. -/
theorem takeDamage_fields (p : Ninja) (amount : Int) :
    (p.takeDamage amount).position = p.position ∧ (p.takeDamage amount).velocity = p.velocity ∧
    (p.takeDamage amount).maxHealth = p.maxHealth ∧
    (p.takeDamage amount).attackCooldown = p.attackCooldown ∧
    (p.takeDamage amount).kills = p.kills := by
  simp only [Ninja.takeDamage]
  split_ifs <;> exact ⟨rfl, rfl, rfl, rfl, rfl⟩

theorem hits_of_dead (n : Nat) (p : Ninja) (h : p.isAlive = false) : hits n p = p := by
  induction n with
  | zero => rfl
  | succ n ih => rw [← hits_succ, takeDamage_of_dead p 10 h, ih]

theorem hits_healthInv (n : Nat) (p : Ninja) (h : HealthInv p) : HealthInv (hits n p) := by
  induction n generalizing p with
  | zero => exact h
  | succ n ih =>
    rw [← hits_succ]
    exact ih _ (takeDamage_healthInv p 10 (by norm_num) h)

theorem hits_fields (n : Nat) (p : Ninja) :
    (hits n p).position = p.position ∧ (hits n p).velocity = p.velocity ∧
    (hits n p).maxHealth = p.maxHealth ∧ (hits n p).attackCooldown = p.attackCooldown ∧
    (hits n p).kills = p.kills := by
  induction n generalizing p with
  | zero => exact ⟨rfl, rfl, rfl, rfl, rfl⟩
  | succ n ih =>
    rw [← hits_succ]
    obtain ⟨a1, a2, a3, a4, a5⟩ := ih (p.takeDamage 10)
    obtain ⟨b1, b2, b3, b4, b5⟩ := takeDamage_fields p 10
    exact ⟨a1.trans b1, a2.trans b2, a3.trans b3, a4.trans b4, a5.trans b5⟩

/-! ## The shape of a frame -/

/-- The early return of `updateGameState`. -/
theorem updateGameState_of_gameOver (sqrt : ℚ → ℚ) (r0 r1 : Nat) (s : GameState) (dt : ℚ)
    (dir : Vector2) (a d : Bool) (hover : s.isGameOver = true) :
    updateGameState sqrt r0 r1 s dt dir a d = s := by
  simp [updateGameState, hover]

/-- A frame on a session that is not game-over: what it may change and how. The player is
the moved player with a new cooldown (kept, or `ATTACK_COOLDOWN`) and kill counter, then
damaged by contact; the pools keep their lengths; the flag is set when the player is dead. -/
theorem updateGameState_shape (sqrt : ℚ → ℚ) (r0 r1 : Nat) (s : GameState) (dt : ℚ)
    (dir : Vector2) (a d : Bool) (hover : s.isGameOver = false) :
    ∃ ss es sc t c k n,
      updateGameState sqrt r0 r1 s dt dir a d =
        { s with
          gameTime := f32 (s.gameTime + dt)
          shurikens := ss
          enemies := es
          score := sc
          timeSinceLastSpawn := t
          player := hits n { movedPlayer s dt dir with attackCooldown := c, kills := k }
          isGameOver := !(hits n { movedPlayer s dt dir with attackCooldown := c, kills := k }).isAlive } ∧
      ss.length = s.shurikens.length ∧ es.length = s.enemies.length ∧
      (c = (movedPlayer s dt dir).attackCooldown ∨ c = ATTACK_COOLDOWN) ∧
      ss = (shurikenLoop sqrt dt
        (handleAttack sqrt (updatePlayer { s with gameTime := f32 (s.gameTime + dt) } dt dir)
          dir a).shurikens
        (handleAttack sqrt (updatePlayer { s with gameTime := f32 (s.gameTime + dt) } dt dir)
          dir a)).1 ∧
      c = (handleAttack sqrt (updatePlayer { s with gameTime := f32 (s.gameTime + dt) } dt dir)
          dir a).player.attackCooldown := by
  have e0 : updateGameState sqrt r0 r1 s dt dir a d =
      finishFrame (spawnPhase r0 r1
        (updateEnemies sqrt (updateShurikens sqrt (handleAttack sqrt
          (updatePlayer { s with gameTime := f32 (s.gameTime + dt) } dt dir) dir a) dt) dt).1 dt
        (updateEnemies sqrt (updateShurikens sqrt (handleAttack sqrt
          (updatePlayer { s with gameTime := f32 (s.gameTime + dt) } dt dir) dir a) dt) dt).2) dt := by
    simp [updateGameState, hover]
  obtain ⟨ss1, c, h1, hl1, hc⟩ :=
    handleAttack_eq sqrt (updatePlayer { s with gameTime := f32 (s.gameTime + dt) } dt dir) dir a
  obtain ⟨ss2, es2, k, sc2, h2, hss, hl2, hle2⟩ := updateShurikens_eq sqrt (handleAttack sqrt
    (updatePlayer { s with gameTime := f32 (s.gameTime + dt) } dt dir) dir a) dt
  obtain ⟨es3, n, h3, hl3⟩ := updateEnemies_eq sqrt (updateShurikens sqrt (handleAttack sqrt
    (updatePlayer { s with gameTime := f32 (s.gameTime + dt) } dt dir) dir a) dt) dt
  obtain ⟨es4, t, h4, hl4⟩ := spawnPhase_eq r0 r1
    (updateEnemies sqrt (updateShurikens sqrt (handleAttack sqrt
      (updatePlayer { s with gameTime := f32 (s.gameTime + dt) } dt dir) dir a) dt) dt).1 dt
    (updateEnemies sqrt (updateShurikens sqrt (handleAttack sqrt
      (updatePlayer { s with gameTime := f32 (s.gameTime + dt) } dt dir) dir a) dt) dt).2
  rw [h3] at hl4
  rw [h2] at hl3
  rw [h1] at hl2 hle2
  have hcH : c = (handleAttack sqrt (updatePlayer { s with gameTime := f32 (s.gameTime + dt) } dt dir)
      dir a).player.attackCooldown := by rw [h1]
  refine ⟨ss2, es4, sc2 + floatToInt (f32 (dt * 10)), t, c, k, n, ?_, hl2.trans hl1,
    hl4.trans (hl3.trans hle2), hc, hss, hcH⟩
  clear hss hcH
  rw [e0, h4, h3, h2, h1]
  simp only [finishFrame, updatePlayer, movedPlayer, hover]
  split_ifs with hal <;> simp_all

theorem movedPlayer_fields (s : GameState) (dt : ℚ) (dir : Vector2) :
    (movedPlayer s dt dir).health = s.player.health ∧
    (movedPlayer s dt dir).maxHealth = s.player.maxHealth ∧
    (movedPlayer s dt dir).isAlive = s.player.isAlive ∧
    (movedPlayer s dt dir).kills = s.player.kills := by
  simp only [movedPlayer, updatePlayer, Ninja.update]
  split_ifs <;> exact ⟨rfl, rfl, rfl, rfl⟩

theorem movedPlayer_attackCooldown (s : GameState) (dt : ℚ) (dir : Vector2) :
    (movedPlayer s dt dir).attackCooldown =
      if s.player.isAlive = true ∧ s.player.attackCooldown > 0 then s.player.attackCooldown - dt
      else s.player.attackCooldown := by
  simp only [movedPlayer, updatePlayer, Ninja.update]
  cases s.player.isAlive <;> simp

/-- A frame keeps the lengths of both pools. -/
theorem updateGameState_lengths (sqrt : ℚ → ℚ) (r0 r1 : Nat) (s : GameState) (dt : ℚ)
    (dir : Vector2) (a d : Bool) :
    (updateGameState sqrt r0 r1 s dt dir a d).shurikens.length = s.shurikens.length ∧
    (updateGameState sqrt r0 r1 s dt dir a d).enemies.length = s.enemies.length := by
  cases hover : s.isGameOver with
  | true => simp [updateGameState, hover]
  | false =>
    obtain ⟨ss, es, sc, t, c, k, n, h, hs, he, -⟩ :=
      updateGameState_shape sqrt r0 r1 s dt dir a d hover
    rw [h]
    exact ⟨hs, he⟩

/-- A frame keeps the health invariant and the maximal health of the player. -/
theorem updateGameState_healthInv (sqrt : ℚ → ℚ) (r0 r1 : Nat) (s : GameState) (dt : ℚ)
    (dir : Vector2) (a d : Bool) (h : HealthInv s.player) :
    HealthInv (updateGameState sqrt r0 r1 s dt dir a d).player ∧
    (updateGameState sqrt r0 r1 s dt dir a d).player.maxHealth = s.player.maxHealth := by
  cases hover : s.isGameOver with
  | true => simp [updateGameState, hover, h]
  | false =>
    obtain ⟨ss, es, sc, t, c, k, n, he, -, -, -⟩ :=
      updateGameState_shape sqrt r0 r1 s dt dir a d hover
    obtain ⟨m1, m2, m3, -⟩ := movedPlayer_fields s dt dir
    rw [he]
    refine ⟨hits_healthInv n _ ?_, ?_⟩
    · obtain ⟨h0, h1, h2⟩ := h
      refine ⟨?_, ?_, ?_⟩
      · show 0 ≤ (movedPlayer s dt dir).health
        rw [m1]; exact h0
      · show (movedPlayer s dt dir).health ≤ (movedPlayer s dt dir).maxHealth
        rw [m1, m2]; exact h1
      · show (movedPlayer s dt dir).health = 0 → (movedPlayer s dt dir).isAlive = false
        rw [m1, m3]; exact h2
    · exact ((hits_fields n _).2.2.1).trans m2

theorem reset_healthInv (s : GameState) (h : 0 < s.player.maxHealth) :
    HealthInv s.reset.player := by
  refine ⟨?_, ?_, ?_⟩
  · show 0 ≤ s.player.maxHealth
    omega
  · show s.player.maxHealth ≤ s.player.maxHealth
    omega
  · intro hz
    have : s.player.maxHealth = 0 := hz
    omega

/-- In every state of a session the pools have lengths 10 and 20, the maximal health of the
player is 100 and the health invariant holds. -/
theorem runCalls_invariant (sqrt : ℚ → ℚ) (calls : List Call) (s : GameState)
    (hs : s.shurikens.length = 10) (he : s.enemies.length = 20)
    (hm : s.player.maxHealth = 100) (hi : HealthInv s.player) :
    (runCalls sqrt s calls).shurikens.length = 10 ∧ (runCalls sqrt s calls).enemies.length = 20 ∧
    (runCalls sqrt s calls).player.maxHealth = 100 ∧ HealthInv (runCalls sqrt s calls).player := by
  induction calls generalizing s with
  | nil => exact ⟨hs, he, hm, hi⟩
  | cons c rest ih =>
    simp only [runCalls, List.foldl_cons]
    cases c with
    | frame f =>
      obtain ⟨l1, l2⟩ :=
        updateGameState_lengths sqrt f.r0 f.r1 s f.dt f.inputDirection f.wantsToAttack f.wantsToDash
      obtain ⟨i1, i2⟩ := updateGameState_healthInv sqrt f.r0 f.r1 s f.dt f.inputDirection
        f.wantsToAttack f.wantsToDash hi
      exact ih _ (l1.trans hs) (l2.trans he) (i2.trans hm) i1
    | reset =>
      refine ih _ ?_ ?_ hm (reset_healthInv s (by omega))
      · simpa [Call.apply, GameState.reset] using hs
      · simpa [Call.apply, GameState.reset] using he

theorem new_invariant :
    GameState.new.shurikens.length = 10 ∧ GameState.new.enemies.length = 20 ∧
    GameState.new.player.maxHealth = 100 ∧ HealthInv GameState.new.player := by
  refine ⟨?_, ?_, rfl, ?_⟩
  · simp [GameState.new, GameState.reset, MAX_SHURIKENS]
  · simp [GameState.new, GameState.reset, MAX_ENEMIES]
  · exact reset_healthInv _ (by decide)

/-! ## The slot taken by an attack and its advance -/

theorem firstInactiveShuriken_eq_some (l : List Shuriken) (i : Nat) (sh0 : Shuriken)
    (hi : l[i]? = some sh0) (hfree : sh0.active = false)
    (hfirst : ∀ j, j < i → ∀ sh, l[j]? = some sh → sh.active = true) :
    firstInactiveShuriken l = some i := by
  induction l generalizing i with
  | nil => simp at hi
  | cons a rest ih =>
    cases i with
    | zero =>
      simp only [List.getElem?_cons_zero, Option.some.injEq] at hi
      simp [firstInactiveShuriken, hi, hfree]
    | succ i =>
      have ha : a.active = true := hfirst 0 (Nat.succ_pos i) a (by simp)
      have hrec : firstInactiveShuriken rest = some i := by
        refine ih i (by simpa using hi) ?_
        intro j hj sh hsh
        exact hfirst (j + 1) (Nat.succ_lt_succ hj) sh (by simpa using hsh)
      simp [firstInactiveShuriken, ha, hrec]

/-- The loop body leaves in the slot the position, direction and lifetime that
`Shuriken::update` computes; only the active flag can differ. -/
theorem shurikenStep_slot (sqrt : ℚ → ℚ) (dt : ℚ) (sh : Shuriken) (st : GameState) :
    (shurikenStep sqrt dt sh st).1.position = (sh.update dt).position ∧
    (shurikenStep sqrt dt sh st).1.direction = (sh.update dt).direction ∧
    (shurikenStep sqrt dt sh st).1.lifetime = (sh.update dt).lifetime := by
  cases ha : sh.active with
  | false => simp [shurikenStep, Shuriken.update, ha]
  | true =>
    simp only [shurikenStep, ha, Bool.not_true, Bool.false_eq_true, if_false]
    split_ifs <;> exact ⟨rfl, rfl, rfl⟩

theorem shurikenLoop_slot (sqrt : ℚ → ℚ) (dt : ℚ) (l : List Shuriken) (st : GameState) (i : Nat)
    (sh : Shuriken) (hi : l[i]? = some sh) :
    ∃ sh2, (shurikenLoop sqrt dt l st).1[i]? = some sh2 ∧
      sh2.position = (sh.update dt).position ∧ sh2.direction = (sh.update dt).direction ∧
      sh2.lifetime = (sh.update dt).lifetime := by
  induction l generalizing i st with
  | nil => simp at hi
  | cons a rest ih =>
    cases i with
    | zero =>
      simp only [List.getElem?_cons_zero, Option.some.injEq] at hi
      subst hi
      exact ⟨_, by simp [shurikenLoop], shurikenStep_slot sqrt dt a st⟩
    | succ i =>
      obtain ⟨sh2, h1, h2⟩ := ih (shurikenStep sqrt dt a st).2 i (by simpa using hi)
      exact ⟨sh2, by simpa [shurikenLoop] using h1, h2⟩

/-! ## Game-over frames, reset and the projectile advance -/

/-- C1: on a session that is already game-over, `updateGameState` returns the state
unchanged, whatever `dt`, the input direction, the attack and dash flags (and the random
draws and the square root) are: every field of the state is equal to its value before. -/
theorem updateGameState_gameOver_noop (sqrt : ℚ → ℚ) (r0 r1 : Nat) (s : GameState) (dt : ℚ)
    (inputDirection : Vector2) (wantsToAttack wantsToDash : Bool)
    (hover : s.isGameOver = true) :
    updateGameState sqrt r0 r1 s dt inputDirection wantsToAttack wantsToDash = s :=
  updateGameState_of_gameOver sqrt r0 r1 s dt inputDirection wantsToAttack wantsToDash hover

/-- C1 at a concrete game-over session: the constructed session with the flag set, a frame
of `1/60` with movement, attack and dash requested. -/
theorem updateGameState_gameOver_noop_witness :
    ({ GameState.new with isGameOver := true } : GameState).isGameOver = true ∧
    updateGameState Rat.sqrt 2 7 { GameState.new with isGameOver := true } (1 / 60) ⟨1, 0⟩
      true true = { GameState.new with isGameOver := true } :=
  ⟨rfl, updateGameState_gameOver_noop Rat.sqrt 2 7 _ (1 / 60) ⟨1, 0⟩ true true rfl⟩

/-- C4: `GameState::reset` on any state puts the player at `(400, 300)` with zero velocity,
full health, alive, no kills and no cooldown, zeroes score, game time and spawn accumulator,
clears the game-over flag, makes every shuriken and enemy slot inactive, keeps both pool
lengths, and is idempotent. -/
theorem reset_restores (s : GameState) :
    s.reset.player.position = ⟨400, 300⟩ ∧ s.reset.player.velocity = ⟨0, 0⟩ ∧
    s.reset.player.health = s.reset.player.maxHealth ∧
    s.reset.player.maxHealth = s.player.maxHealth ∧
    s.reset.player.isAlive = true ∧ s.reset.player.kills = 0 ∧
    s.reset.player.attackCooldown = 0 ∧
    s.reset.score = 0 ∧ s.reset.gameTime = 0 ∧ s.reset.timeSinceLastSpawn = 0 ∧
    s.reset.isGameOver = false ∧
    (∀ shuriken ∈ s.reset.shurikens, shuriken.active = false) ∧
    (∀ enemy ∈ s.reset.enemies, enemy.active = false) ∧
    s.reset.shurikens.length = s.shurikens.length ∧
    s.reset.enemies.length = s.enemies.length ∧
    s.reset.reset = s.reset := by
  refine ⟨rfl, rfl, rfl, rfl, rfl, rfl, rfl, rfl, rfl, rfl, rfl, ?_, ?_, ?_, ?_, ?_⟩
  · intro shuriken h
    simp only [GameState.reset, List.mem_map] at h
    obtain ⟨a, -, rfl⟩ := h
    rfl
  · intro enemy h
    simp only [GameState.reset, List.mem_map] at h
    obtain ⟨a, -, rfl⟩ := h
    rfl
  · simp [GameState.reset]
  · simp [GameState.reset]
  · simp [GameState.reset, Ninja.reset, Function.comp_def]

/-- C10: `Shuriken::update` leaves an inactive projectile as it is; on an active one it
adds `direction * 500 * dt` to the position, subtracts `dt` from the lifetime, keeps the
direction, and the projectile stays active exactly when the new lifetime is positive. At
position `(400, 300)`, direction `(1, 0)`, lifetime `2` and `dt = 1/60` the result is at
`(400 + 500/60, 300)` with lifetime `2 - 1/60`, still active. -/
theorem shuriken_update_spec :
    (∀ (sh : Shuriken) (dt : ℚ), sh.active = false → sh.update dt = sh) ∧
    (∀ (sh : Shuriken) (dt : ℚ), sh.active = true →
      (sh.update dt).position =
        ⟨sh.position.x + sh.direction.x * 500 * dt, sh.position.y + sh.direction.y * 500 * dt⟩ ∧
      (sh.update dt).lifetime = sh.lifetime - dt ∧
      (sh.update dt).direction = sh.direction ∧
      ((sh.update dt).active = true ↔ sh.lifetime - dt > 0)) ∧
    Shuriken.update { position := ⟨400, 300⟩, direction := ⟨1, 0⟩, active := true, lifetime := 2 }
        (1 / 60) =
      { position := ⟨400 + 500 / 60, 300⟩, direction := ⟨1, 0⟩, active := true,
        lifetime := 2 - 1 / 60 } := by
  refine ⟨?_, ?_, ?_⟩
  · intro sh dt h
    simp [Shuriken.update, h]
  · intro sh dt h
    refine ⟨?_, ?_, ?_, ?_⟩
    · simp [Shuriken.update, h, Vector2.add, Vector2.mul, SHURIKEN_SPEED]
    · simp [Shuriken.update, h]
    · simp [Shuriken.update, h]
    · simp [Shuriken.update, h]
  · simp [Shuriken.update, Vector2.add, Vector2.mul, SHURIKEN_SPEED]
    norm_num

/-! ## Player health, death and the pools -/

/-- C2: the player health invariant `0 ≤ health ≤ maxHealth ∧ (health = 0 → not alive)`
holds after `GameState::reset` (for a positive `maxHealth`, which is `100` in every session
since no function writes it; in particular in the constructed state), is preserved by
`Ninja::takeDamage` for every amount `≥ 0`, is preserved by `updateGameState` for every
`dt`, input and flags, however many enemies touch the player, and so holds in every state
of a session. -/
theorem player_health_invariant :
    (∀ s : GameState, 0 < s.player.maxHealth → HealthInv s.reset.player) ∧
    HealthInv GameState.new.player ∧
    (∀ (p : Ninja) (amount : Int), 0 ≤ amount → HealthInv p → HealthInv (p.takeDamage amount)) ∧
    (∀ (sqrt : ℚ → ℚ) (r0 r1 : Nat) (s : GameState) (dt : ℚ) (dir : Vector2) (a d : Bool),
      HealthInv s.player → HealthInv (updateGameState sqrt r0 r1 s dt dir a d).player) ∧
    (∀ (sqrt : ℚ → ℚ) (calls : List Call),
      HealthInv (runCalls sqrt GameState.new calls).player ∧
      HealthInv (runCalls sqrt GameState.new calls).reset.player) := by
  refine ⟨reset_healthInv, new_invariant.2.2.2, takeDamage_healthInv, ?_, ?_⟩
  · intro sqrt r0 r1 s dt dir a d h
    exact (updateGameState_healthInv sqrt r0 r1 s dt dir a d h).1
  · intro sqrt calls
    obtain ⟨n1, n2, n3, n4⟩ := new_invariant
    obtain ⟨-, -, hm, hi⟩ := runCalls_invariant sqrt calls GameState.new n1 n2 n3 n4
    exact ⟨hi, reset_healthInv _ (by omega)⟩

/-- C3: a dead player stays dead under `updateGameState`, with the same health, and the
session is game-over afterwards; a game-over session stays game-over; `takeDamage` and
`Ninja::update` do nothing to a dead player; `GameState::reset` is what makes the player
alive and the session running again. -/
theorem death_gameOver_terminal :
    (∀ (sqrt : ℚ → ℚ) (r0 r1 : Nat) (s : GameState) (dt : ℚ) (dir : Vector2) (a d : Bool),
      s.player.isAlive = false →
        (updateGameState sqrt r0 r1 s dt dir a d).player.isAlive = false ∧
        (updateGameState sqrt r0 r1 s dt dir a d).player.health = s.player.health ∧
        (updateGameState sqrt r0 r1 s dt dir a d).isGameOver = true) ∧
    (∀ (sqrt : ℚ → ℚ) (r0 r1 : Nat) (s : GameState) (dt : ℚ) (dir : Vector2) (a d : Bool),
      s.isGameOver = true → (updateGameState sqrt r0 r1 s dt dir a d).isGameOver = true) ∧
    (∀ (p : Ninja) (amount : Int), p.isAlive = false → p.takeDamage amount = p) ∧
    (∀ (p : Ninja) (dt : ℚ) (s : GameState), p.isAlive = false → p.update dt s = p) ∧
    (∀ s : GameState, s.reset.player.isAlive = true ∧ s.reset.isGameOver = false) := by
  refine ⟨?_, ?_, takeDamage_of_dead, ?_, fun s => ⟨rfl, rfl⟩⟩
  · intro sqrt r0 r1 s dt dir a d hdead
    cases hover : s.isGameOver with
    | true =>
      rw [updateGameState_of_gameOver sqrt r0 r1 s dt dir a d hover]
      exact ⟨hdead, rfl, hover⟩
    | false =>
      obtain ⟨ss, es, sc, t, c, k, n, he, -, -, -⟩ :=
        updateGameState_shape sqrt r0 r1 s dt dir a d hover
      obtain ⟨m1, -, m3, -⟩ := movedPlayer_fields s dt dir
      have hd : ({ movedPlayer s dt dir with attackCooldown := c, kills := k } : Ninja).isAlive
          = false := m3.trans hdead
      rw [he, hits_of_dead n _ hd]
      exact ⟨hd, m1, by simp [m3, hdead]⟩
  · intro sqrt r0 r1 s dt dir a d hover
    rw [updateGameState_of_gameOver sqrt r0 r1 s dt dir a d hover]
    exact hover
  · intro p dt s h
    simp [Ninja.update, h]

/-- C2 at concrete inputs: a hit of 10 on a player with health 5, a reset of a dead player,
and a frame in which two enemies damage a player of health 15, who ends dead at health 0. -/
theorem player_health_invariant_witness :
    ((0 : Int) ≤ 10 ∧ HealthInv { health := 5 } ∧ HealthInv (Ninja.takeDamage { health := 5 } 10)) ∧
    HealthInv (GameState.reset { player := { health := 0, isAlive := false } }).player ∧
    (HealthInv crowdedState.player ∧
      HealthInv (updateGameState Rat.sqrt 0 0 crowdedState (1 / 2) ⟨0, 0⟩ false false).player ∧
      (updateGameState Rat.sqrt 0 0 crowdedState (1 / 2) ⟨0, 0⟩ false false).player.health = 0 ∧
      (updateGameState Rat.sqrt 0 0 crowdedState (1 / 2) ⟨0, 0⟩ false false).player.isAlive
        = false) :=
  ⟨⟨by decide, by decide, player_health_invariant.2.2.1 { health := 5 } 10 (by decide) (by decide)⟩,
    player_health_invariant.1 { player := { health := 0, isAlive := false } } (by decide),
    by decide!,
    player_health_invariant.2.2.2.1 Rat.sqrt 0 0 crowdedState (1 / 2) ⟨0, 0⟩ false false
      (by decide!),
    by decide!, by decide!⟩

/-- C3 at a concrete session whose player is dead while the flag is not yet set. -/
theorem death_gameOver_terminal_witness :
    ({ player := { health := 0, isAlive := false } } : GameState).player.isAlive = false ∧
    (updateGameState Rat.sqrt 0 0 { player := { health := 0, isAlive := false } } (1 / 60)
      ⟨1, 0⟩ true false).player.isAlive = false ∧
    (updateGameState Rat.sqrt 0 0 { player := { health := 0, isAlive := false } } (1 / 60)
      ⟨1, 0⟩ true false).player.health = 0 ∧
    (updateGameState Rat.sqrt 0 0 { player := { health := 0, isAlive := false } } (1 / 60)
      ⟨1, 0⟩ true false).isGameOver = true :=
  ⟨rfl, death_gameOver_terminal.1 Rat.sqrt 0 0 { player := { health := 0, isAlive := false } }
    (1 / 60) ⟨1, 0⟩ true false rfl⟩

/-- C5: when every shuriken slot is active at the start of the frame (the pool of 10 is
saturated), a frame with `wantsToAttack = true` ends in exactly the state of the same frame
with `wantsToAttack = false`: no slot is overwritten and the cooldown is not started. -/
theorem saturated_pool_drops_attack (sqrt : ℚ → ℚ) (r0 r1 : Nat) (s : GameState) (dt : ℚ)
    (inputDirection : Vector2) (wantsToDash : Bool)
    (hfull : ∀ sh ∈ s.shurikens, sh.active = true) :
    updateGameState sqrt r0 r1 s dt inputDirection true wantsToDash =
      updateGameState sqrt r0 r1 s dt inputDirection false wantsToDash := by
  have hnone : ∀ st : GameState, st.shurikens = s.shurikens →
      handleAttack sqrt st inputDirection true = handleAttack sqrt st inputDirection false := by
    intro st hst
    have : st.getAvailableShuriken = none := by
      rw [GameState.getAvailableShuriken, hst]
      exact (firstInactiveShuriken_eq_none _).2 hfull
    simp [handleAttack, this]
  simp only [updateGameState]
  rw [hnone (updatePlayer { s with gameTime := f32 (s.gameTime + dt) } dt inputDirection) rfl]

/-- C5 at the constructed session with all 10 slots active. -/
theorem saturated_pool_drops_attack_witness :
    (∀ sh ∈ saturatedState.shurikens, sh.active = true) ∧ saturatedState.shurikens.length = 10 ∧
    saturatedState.isGameOver = false ∧
    updateGameState Rat.sqrt 0 0 saturatedState (1 / 60) ⟨1, 0⟩ true false =
      updateGameState Rat.sqrt 0 0 saturatedState (1 / 60) ⟨1, 0⟩ false false :=
  ⟨by simp [saturatedState], by simp [saturatedState], rfl,
    saturated_pool_drops_attack Rat.sqrt 0 0 saturatedState (1 / 60) ⟨1, 0⟩ false
      (by simp [saturatedState])⟩

/-- C6: the constructed session has 10 shuriken slots and 20 enemy slots; `updateGameState`
and `GameState::reset` keep both lengths; so in every state reached from the constructor by
frames and resets the pools still have 10 and 20 slots, and the numbers of active shurikens
and of active enemies are at most 10 and 20. -/
theorem pool_capacity :
    GameState.new.shurikens.length = 10 ∧ GameState.new.enemies.length = 20 ∧
    (∀ (sqrt : ℚ → ℚ) (r0 r1 : Nat) (s : GameState) (dt : ℚ) (dir : Vector2) (a d : Bool),
      (updateGameState sqrt r0 r1 s dt dir a d).shurikens.length = s.shurikens.length ∧
      (updateGameState sqrt r0 r1 s dt dir a d).enemies.length = s.enemies.length) ∧
    (∀ s : GameState, s.reset.shurikens.length = s.shurikens.length ∧
      s.reset.enemies.length = s.enemies.length) ∧
    (∀ (sqrt : ℚ → ℚ) (calls : List Call),
      (runCalls sqrt GameState.new calls).shurikens.length = 10 ∧
      (runCalls sqrt GameState.new calls).enemies.length = 20 ∧
      activeShurikens (runCalls sqrt GameState.new calls) ≤ 10 ∧
      activeEnemies (runCalls sqrt GameState.new calls) ≤ 20) := by
  obtain ⟨n1, n2, n3, n4⟩ := new_invariant
  refine ⟨n1, n2, updateGameState_lengths, ?_, ?_⟩
  · intro s
    simp [GameState.reset]
  · intro sqrt calls
    obtain ⟨hs, he, -, -⟩ := runCalls_invariant sqrt calls GameState.new n1 n2 n3 n4
    refine ⟨hs, he, ?_, ?_⟩
    · rw [← hs]
      exact List.countP_le_length _
    · rw [← he]
      exact List.countP_le_length _

/-! ## Contact damage -/

theorem Enemy.pursue_damageCooldown (sqrt : ℚ → ℚ) (self : Enemy) (dt : ℚ) (ninja : Ninja) :
    (self.pursue sqrt dt ninja).damageCooldown = self.damageCooldown := by
  simp only [Enemy.pursue]
  split_ifs <;> rfl

theorem Enemy.update_of_active (sqrt : ℚ → ℚ) (self : Enemy) (dt : ℚ) (ninja : Ninja)
    (state : GameState) (h : self.active = true) :
    self.update sqrt dt ninja state =
      Enemy.afterPursue sqrt (self.pursue sqrt dt ninja) dt ninja state := by
  unfold Enemy.update
  rw [if_neg (by simp [h])]
  rfl

theorem Enemy.afterPursue_contact (sqrt : ℚ → ℚ) (m : Enemy) (dt : ℚ) (ninja : Ninja)
    (state : GameState) (hcd : m.damageCooldown ≤ 0) (hdt : dt < 1) :
    ((Enemy.afterPursue sqrt m dt ninja state).isCollidingWithNinja sqrt ninja &&
      decide ((Enemy.afterPursue sqrt m dt ninja state).damageCooldown ≤ 0)) = false := by
  have h1 : ¬ ((1 : ℚ) - dt ≤ 0) := by linarith
  have h2 : ¬ (m.damageCooldown > 0) := by linarith
  cases hT : m.isCollidingWithNinja sqrt ninja with
  | false =>
    have : (Enemy.afterPursue sqrt m dt ninja state).isCollidingWithNinja sqrt ninja = false := by
      rw [← hT]
      simp only [Enemy.afterPursue, Enemy.isCollidingWithNinja]
      split_ifs <;> rfl
    simp [this]
  | true =>
    have : (Enemy.afterPursue sqrt m dt ninja state).damageCooldown = 1 - dt := by
      simp only [Enemy.afterPursue, hT, hcd, decide_True, Bool.and_self, if_true]
      split_ifs <;> first | rfl | (exfalso; simp_all)
    simp [this, h1]

/-- An enemy whose damage cooldown has elapsed never damages the player in a frame with
`dt < 1`: `Enemy::update` itself re-arms the cooldown to `1` on contact and counts it down to
`1 - dt > 0`, so the test in the loop of `updateGameState` finds the cooldown not elapsed. -/
theorem enemyStep_elapsed_cooldown (sqrt : ℚ → ℚ) (dt : ℚ) (e : Enemy) (st : GameState)
    (c : Int) (hcd : e.damageCooldown ≤ 0) (hdt : dt < 1) :
    (enemyStep sqrt dt e st c).2.1 = st := by
  cases ha : e.active with
  | false => simp [enemyStep, ha]
  | true =>
    have hc := Enemy.pursue_damageCooldown sqrt e dt st.player
    have := Enemy.afterPursue_contact sqrt (e.pursue sqrt dt st.player) dt st.player st
      (by rw [hc]; exact hcd) hdt
    simp only [enemyStep, ha, Enemy.update_of_active sqrt e dt st.player st ha]
    simp [this]

/-- C7 (evaluation of the code): on the contact example with zero input and `dt = 1/60`,
the frame leaves the player's health at 100 and the enemy's damage cooldown at `59/60`:
no damage is applied and the cooldown is not left at `1`. -/
theorem contact_damage_not_applied :
    contactState.isGameOver = false ∧ contactState.player.isAlive = true ∧
    contactState.player.health = 100 ∧ contactState.player.position = ⟨400, 300⟩ ∧
    (updateGameState Rat.sqrt 0 0 contactState (1 / 60) ⟨0, 0⟩ false false).player.health = 100 ∧
    (updateGameState Rat.sqrt 0 0 contactState (1 / 60) ⟨0, 0⟩ false false).enemies.head? =
      some { position := ⟨400, 300⟩, active := true, damageCooldown := 59 / 60 } := by
  decide!

/-- The contact example at `dt = 1`: the cooldown re-armed by `Enemy::update` runs out within
the frame, and only then is the damage applied: health 90, cooldown left at 1. -/
theorem contact_damage_at_dt_one :
    (updateGameState Rat.sqrt 0 0 contactState 1 ⟨0, 0⟩ false false).player.health = 90 ∧
    (updateGameState Rat.sqrt 0 0 contactState 1 ⟨0, 0⟩ false false).enemies.head? =
      some { position := ⟨400, 300⟩, active := true, damageCooldown := 1 } := by
  decide!

/-! ## Attack cooldown -/

/-- C8 (counterexample): an alive player with `attackCooldown = 0.3` advanced by `dt = 0.5`
has `attackCooldown = -0.2 < 0`; and the session that attacks in a first frame of `1/60`
and then runs a frame of `0.5` ends with `attackCooldown = -0.2`. -/
theorem attackCooldown_negative :
    ({ attackCooldown := 3 / 10 } : Ninja).isAlive = true ∧
    (0 : ℚ) ≤ ({ attackCooldown := 3 / 10 } : Ninja).attackCooldown ∧ (0 : ℚ) ≤ 1 / 2 ∧
    (Ninja.update { attackCooldown := 3 / 10 } (1 / 2) GameState.new).attackCooldown = -(1 / 5) ∧
    ¬ (0 ≤ (Ninja.update { attackCooldown := 3 / 10 } (1 / 2) GameState.new).attackCooldown) ∧
    (runCalls Rat.sqrt GameState.new
      [Call.frame ⟨1 / 60, ⟨0, 0⟩, true, false, 0, 0⟩,
       Call.frame ⟨1 / 2, ⟨0, 0⟩, false, false, 0, 0⟩]).player.attackCooldown = -(1 / 5) := by
  decide!

/-- A frame with `0 ≤ dt ≤ D` keeps the attack cooldown at or above `-D`. -/
theorem updateGameState_attackCooldown (sqrt : ℚ → ℚ) (r0 r1 : Nat) (s : GameState) (dt D : ℚ)
    (dir : Vector2) (a d : Bool) (hdt : 0 ≤ dt) (hD : dt ≤ D)
    (h : -D ≤ s.player.attackCooldown) :
    -D ≤ (updateGameState sqrt r0 r1 s dt dir a d).player.attackCooldown := by
  cases hover : s.isGameOver with
  | true => rw [updateGameState_of_gameOver sqrt r0 r1 s dt dir a d hover]; exact h
  | false =>
    obtain ⟨ss, es, sc, t, c, k, n, he, -, -, hc⟩ :=
      updateGameState_shape sqrt r0 r1 s dt dir a d hover
    rw [he]
    show -D ≤ (hits n _).attackCooldown
    rw [(hits_fields n _).2.2.2.1]
    show -D ≤ c
    rcases hc with hc | hc
    · rw [hc, movedPlayer_attackCooldown]
      split_ifs with hif
      · linarith [hif.2]
      · exact h
    · rw [hc]
      simp only [ATTACK_COOLDOWN]
      linarith

theorem runCalls_attackCooldown (sqrt : ℚ → ℚ) (D : ℚ) (hD : 0 ≤ D) (calls : List Call)
    (s : GameState) (hcalls : ∀ f : Frame, Call.frame f ∈ calls → 0 ≤ f.dt ∧ f.dt ≤ D)
    (h : -D ≤ s.player.attackCooldown) :
    -D ≤ (runCalls sqrt s calls).player.attackCooldown := by
  induction calls generalizing s with
  | nil => exact h
  | cons c rest ih =>
    simp only [runCalls, List.foldl_cons]
    have hrest : ∀ f : Frame, Call.frame f ∈ rest → 0 ≤ f.dt ∧ f.dt ≤ D :=
      fun f hf => hcalls f (List.mem_cons_of_mem _ hf)
    cases c with
    | frame f =>
      obtain ⟨h0, h1⟩ := hcalls f (List.mem_cons_self _ _)
      exact ih _ hrest (updateGameState_attackCooldown sqrt f.r0 f.r1 s f.dt D f.inputDirection
        f.wantsToAttack f.wantsToDash h0 h1 h)
    | reset =>
      refine ih _ hrest ?_
      show -D ≤ (0 : ℚ)
      linarith

/-- C8 (amended): the attack cooldown can fall below 0, but by no more than one frame's
`dt`. For an alive player with `attackCooldown ≥ 0` and `dt ≥ 0`, after `Ninja::update` the
cooldown is `≥ -dt`, and it is `≥ 0` when `dt` is at most the old cooldown or the old
cooldown is 0. Hence in every state reached from a reset by frames (and resets) with
`0 ≤ dt ≤ D`, the cooldown is `≥ -D`. -/
theorem attackCooldown_lower_bound :
    (∀ (p : Ninja) (dt : ℚ) (s : GameState), p.isAlive = true → 0 ≤ p.attackCooldown → 0 ≤ dt →
      -dt ≤ (p.update dt s).attackCooldown ∧
      (dt ≤ p.attackCooldown ∨ p.attackCooldown = 0 → 0 ≤ (p.update dt s).attackCooldown)) ∧
    (∀ (sqrt : ℚ → ℚ) (D : ℚ) (s : GameState) (calls : List Call), 0 ≤ D →
      (∀ f : Frame, Call.frame f ∈ calls → 0 ≤ f.dt ∧ f.dt ≤ D) →
      -D ≤ (runCalls sqrt s.reset calls).player.attackCooldown) := by
  refine ⟨?_, ?_⟩
  · intro p dt s halive hc hdt
    simp only [Ninja.update, halive]
    refine ⟨?_, ?_⟩
    · simp only [Bool.not_true, Bool.false_eq_true, if_false]
      split_ifs with h
      · show -dt ≤ p.attackCooldown - dt
        linarith
      · show -dt ≤ p.attackCooldown
        linarith
    · intro hor
      simp only [Bool.not_true, Bool.false_eq_true, if_false]
      split_ifs with h
      · show 0 ≤ p.attackCooldown - dt
        rcases hor with h1 | h1
        · linarith
        · rw [h1] at h; exact absurd h (lt_irrefl _)
      · exact hc
  · intro sqrt D s calls hD hcalls
    refine runCalls_attackCooldown sqrt D hD calls s.reset hcalls ?_
    show -D ≤ (0 : ℚ)
    linarith

/-- C8 (amended) at the example of the claim, cooldown `0.3` and `dt = 0.5`, and on the
session that attacks and then runs a frame of `0.5`. -/
theorem attackCooldown_lower_bound_witness :
    (-(1 / 2 : ℚ) ≤ (Ninja.update { attackCooldown := 3 / 10 } (1 / 2) GameState.new).attackCooldown) ∧
    (-(1 / 2 : ℚ) ≤ (runCalls Rat.sqrt (GameState.reset GameState.new)
      [Call.frame ⟨1 / 60, ⟨0, 0⟩, true, false, 0, 0⟩,
       Call.frame ⟨1 / 2, ⟨0, 0⟩, false, false, 0, 0⟩]).player.attackCooldown) :=
  ⟨(attackCooldown_lower_bound.1 { attackCooldown := 3 / 10 } (1 / 2) GameState.new rfl
      (by norm_num) (by norm_num)).1,
    attackCooldown_lower_bound.2 Rat.sqrt (1 / 2) GameState.new _ (by norm_num) (by
      intro f hf
      simp only [List.mem_cons, Call.frame.injEq, List.mem_singleton, List.not_mem_nil,
        or_false] at hf
      rcases hf with rfl | rfl <;> norm_num)⟩

/-! ## Launch with zero input direction -/

/-- The attack block on the moved state, when the attack is wanted, the cooldown has
elapsed, the player is alive, slot `i` is the first inactive one and the input is zero. -/
theorem handleAttack_zero_direction (sqrt : ℚ → ℚ) (st : GameState) (i : Nat) (sh0 : Shuriken)
    (hsqrt : sqrt 0 = 0) (halive : st.player.isAlive = true)
    (hcd : st.player.attackCooldown ≤ 0)
    (hi : st.shurikens[i]? = some sh0) (hfree : sh0.active = false)
    (hfirst : ∀ j, j < i → ∀ sh, st.shurikens[j]? = some sh → sh.active = true) :
    handleAttack sqrt st ⟨0, 0⟩ true =
      { st with
        shurikens := st.shurikens.set i
          { position := st.player.position, direction := ⟨1, 0⟩, active := true, lifetime := 2 }
        player := { st.player with attackCooldown := ATTACK_COOLDOWN } } := by
  have hslot : st.getAvailableShuriken = some i :=
    firstInactiveShuriken_eq_some st.shurikens i sh0 hi hfree hfirst
  simp [handleAttack, hslot, halive, hcd, Vector2.length, hsqrt]

/-- C9: in a frame on a running session with an alive player, the cooldown elapsed after
the player's advance, slot `i` the first inactive shuriken slot, zero input direction and
`wantsToAttack = true` (the square root maps 0 to 0): the attack block writes into slot `i`
a shuriken at the player's position with direction `(1, 0)`, active, lifetime 2, and sets
the cooldown to `0.3`; at the end of the frame slot `i` has direction `(1, 0)`, the player's
`y`, the player's `x + 500 * dt` and lifetime `2 - dt`, and the cooldown is `0.3`. -/
theorem zero_direction_launch (sqrt : ℚ → ℚ) (r0 r1 : Nat) (s : GameState) (dt : ℚ)
    (wantsToDash : Bool) (i : Nat) (sh0 : Shuriken)
    (hsqrt : sqrt 0 = 0)
    (hover : s.isGameOver = false) (halive : s.player.isAlive = true)
    (hcd : (movedPlayer s dt ⟨0, 0⟩).attackCooldown ≤ 0)
    (hi : s.shurikens[i]? = some sh0) (hfree : sh0.active = false)
    (hfirst : ∀ j, j < i → ∀ sh, s.shurikens[j]? = some sh → sh.active = true) :
    (handleAttack sqrt (updatePlayer { s with gameTime := f32 (s.gameTime + dt) } dt ⟨0, 0⟩)
        ⟨0, 0⟩ true).shurikens =
      s.shurikens.set i
        { position := (movedPlayer s dt ⟨0, 0⟩).position, direction := ⟨1, 0⟩, active := true,
          lifetime := 2 } ∧
    (handleAttack sqrt (updatePlayer { s with gameTime := f32 (s.gameTime + dt) } dt ⟨0, 0⟩)
        ⟨0, 0⟩ true).player.attackCooldown = 3 / 10 ∧
    (updateGameState sqrt r0 r1 s dt ⟨0, 0⟩ true wantsToDash).player.attackCooldown = 3 / 10 ∧
    (updateGameState sqrt r0 r1 s dt ⟨0, 0⟩ true wantsToDash).player.position =
      (movedPlayer s dt ⟨0, 0⟩).position ∧
    ∃ sh, (updateGameState sqrt r0 r1 s dt ⟨0, 0⟩ true wantsToDash).shurikens[i]? = some sh ∧
      sh.direction = ⟨1, 0⟩ ∧
      sh.position =
        ⟨(updateGameState sqrt r0 r1 s dt ⟨0, 0⟩ true wantsToDash).player.position.x + 500 * dt,
          (updateGameState sqrt r0 r1 s dt ⟨0, 0⟩ true wantsToDash).player.position.y⟩ ∧
      sh.lifetime = 2 - dt := by
  have hH := handleAttack_zero_direction sqrt
    (updatePlayer { s with gameTime := f32 (s.gameTime + dt) } dt ⟨0, 0⟩) i sh0 hsqrt
    ((movedPlayer_fields s dt ⟨0, 0⟩).2.2.1.trans halive) hcd hi hfree hfirst
  obtain ⟨ss, es, sc, t, c, k, n, he, -, -, -, hss, hc⟩ :=
    updateGameState_shape sqrt r0 r1 s dt ⟨0, 0⟩ true wantsToDash hover
  rw [hH] at hss hc
  have hcool : (updateGameState sqrt r0 r1 s dt ⟨0, 0⟩ true wantsToDash).player.attackCooldown
      = 3 / 10 := by
    rw [he]
    show (hits n _).attackCooldown = 3 / 10
    rw [(hits_fields n _).2.2.2.1]
    show c = 3 / 10
    rw [hc]
    rfl
  have hpos : (updateGameState sqrt r0 r1 s dt ⟨0, 0⟩ true wantsToDash).player.position =
      (movedPlayer s dt ⟨0, 0⟩).position := by
    rw [he]
    show (hits n _).position = _
    rw [(hits_fields n _).1]
  have hset : (s.shurikens.set i
      { position := (movedPlayer s dt ⟨0, 0⟩).position, direction := ⟨1, 0⟩, active := true,
        lifetime := 2 })[i]? = some
      { position := (movedPlayer s dt ⟨0, 0⟩).position, direction := ⟨1, 0⟩, active := true,
        lifetime := 2 } := by
    have hlt : i < s.shurikens.length := by
      rcases Nat.lt_or_ge i s.shurikens.length with h | h
      · exact h
      · rw [List.getElem?_eq_none h] at hi
        exact absurd hi (by simp)
    simp [List.getElem?_set, hlt]
  obtain ⟨sh2, hget, hp, hd, hl⟩ := shurikenLoop_slot sqrt dt _
    { updatePlayer { s with gameTime := f32 (s.gameTime + dt) } dt ⟨0, 0⟩ with
      shurikens := s.shurikens.set i
        { position := (movedPlayer s dt ⟨0, 0⟩).position, direction := ⟨1, 0⟩, active := true,
          lifetime := 2 }
      player := { (movedPlayer s dt ⟨0, 0⟩) with attackCooldown := ATTACK_COOLDOWN } } i _ hset
  refine ⟨by rw [hH]; rfl, by rw [hH]; rfl, hcool, hpos, sh2, ?_, ?_, ?_, ?_⟩
  · rw [he]
    show ss[i]? = some sh2
    rw [hss]
    exact hget
  · rw [hd]
    simp [Shuriken.update]
  · rw [hp, hpos]
    simp [Shuriken.update, Vector2.add, Vector2.mul, SHURIKEN_SPEED]
  · rw [hl]
    simp [Shuriken.update]

/-- C9 on the constructed session: frame of `1/60`, slot 0. -/
theorem zero_direction_launch_witness :
    Rat.sqrt 0 = 0 ∧ GameState.new.isGameOver = false ∧ GameState.new.player.isAlive = true ∧
    (movedPlayer GameState.new (1 / 60) ⟨0, 0⟩).attackCooldown ≤ 0 ∧
    GameState.new.shurikens[0]? = some ({} : Shuriken) ∧
    (updateGameState Rat.sqrt 0 0 GameState.new (1 / 60) ⟨0, 0⟩ true false).player.attackCooldown
      = 3 / 10 ∧
    ∃ sh, (updateGameState Rat.sqrt 0 0 GameState.new (1 / 60) ⟨0, 0⟩ true false).shurikens[0]?
        = some sh ∧
      sh.direction = ⟨1, 0⟩ ∧
      sh.position =
        ⟨(updateGameState Rat.sqrt 0 0 GameState.new (1 / 60) ⟨0, 0⟩ true false).player.position.x
            + 500 * (1 / 60),
          (updateGameState Rat.sqrt 0 0 GameState.new (1 / 60) ⟨0, 0⟩ true false).player.position.y⟩ ∧
      sh.lifetime = 2 - 1 / 60 :=
  ⟨by decide!, rfl, rfl, by decide!, by decide!,
    (zero_direction_launch Rat.sqrt 0 0 GameState.new (1 / 60) false 0 ({} : Shuriken) (by decide!) rfl rfl
      (by decide!) (by decide!) rfl (fun j hj => absurd hj (Nat.not_lt_zero j))).2.2.1,
    (zero_direction_launch Rat.sqrt 0 0 GameState.new (1 / 60) false 0 ({} : Shuriken) (by decide!) rfl rfl
      (by decide!) (by decide!) rfl (fun j hj => absurd hj (Nat.not_lt_zero j))).2.2.2.2⟩

/-! ## Enemy damage, the dash flag and the world bounds -/

/-- C11: `Enemy::takeDamage(amount)` sets the health to `max 0 (health - amount)`, makes the
enemy inactive exactly when `health - amount ≤ 0` and otherwise keeps the active flag, and
leaves position, velocity, maximal health and damage cooldown as they are. An active enemy
of health 30 is active with health 10 after two hits of 10, and inactive with health 0
after a third. -/
theorem enemy_takeDamage_spec :
    (∀ (e : Enemy) (amount : Int),
      (e.takeDamage amount).health = max 0 (e.health - amount) ∧
      (e.health - amount ≤ 0 → (e.takeDamage amount).active = false) ∧
      (¬ e.health - amount ≤ 0 → (e.takeDamage amount).active = e.active) ∧
      (e.takeDamage amount).position = e.position ∧
      (e.takeDamage amount).velocity = e.velocity ∧
      (e.takeDamage amount).maxHealth = e.maxHealth ∧
      (e.takeDamage amount).damageCooldown = e.damageCooldown) ∧
    ((Enemy.takeDamage { health := 30, active := true } 10).takeDamage 10 =
      { health := 10, active := true }) ∧
    (((Enemy.takeDamage { health := 30, active := true } 10).takeDamage 10).takeDamage 10 =
      { health := 0, active := false }) := by
  refine ⟨?_, by decide, by decide⟩
  intro e amount
  simp only [Enemy.takeDamage]
  split_ifs with h
  · exact ⟨(max_eq_left h).symm, fun _ => rfl, fun hn => absurd h hn, rfl, rfl, rfl, rfl⟩
  · exact ⟨(max_eq_right (le_of_lt (not_le.mp h))).symm, fun hn => absurd hn h, fun _ => rfl,
      rfl, rfl, rfl, rfl⟩

/-- C11 on an enemy of health 4 hit by 10 (deactivated, health 0) and on an enemy of health
30 hit by 10 (still active). -/
theorem enemy_takeDamage_spec_witness :
    ((4 : Int) - 10 ≤ 0 ∧ (Enemy.takeDamage { health := 4, active := true } 10).active = false) ∧
    (¬ (30 : Int) - 10 ≤ 0 ∧ (Enemy.takeDamage { health := 30, active := true } 10).active = true) :=
  ⟨⟨by decide, (enemy_takeDamage_spec.1 { health := 4, active := true } 10).2.1 (by decide)⟩,
    ⟨by decide, (enemy_takeDamage_spec.1 { health := 30, active := true } 10).2.2.1 (by decide)⟩⟩

/-- C17: the argument `wantsToDash` is never read: a frame with `wantsToDash = true` and the
same frame with `wantsToDash = false` end in the same state, for every state, `dt`, input
direction, attack flag and random draws. -/
theorem wantsToDash_ignored (sqrt : ℚ → ℚ) (r0 r1 : Nat) (s : GameState) (dt : ℚ)
    (inputDirection : Vector2) (wantsToAttack : Bool) :
    updateGameState sqrt r0 r1 s dt inputDirection wantsToAttack true =
      updateGameState sqrt r0 r1 s dt inputDirection wantsToAttack false :=
  rfl

theorem clamp_bounds (v w : ℚ) (hw : 0 ≤ w) :
    0 ≤ clamp v 0 w ∧ clamp v 0 w ≤ w ∧ clamp v 0 w = max 0 (min v w) := by
  simp only [clamp]
  split_ifs with h1 h2
  · refine ⟨le_refl _, hw, ?_⟩
    rw [max_eq_left]
    exact le_trans (min_le_left _ _) (le_of_lt h1)
  · refine ⟨hw, le_refl _, ?_⟩
    rw [min_eq_right (le_of_lt h2), max_eq_right hw]
  · have h1 := not_lt.mp h1
    have h2 := not_lt.mp h2
    refine ⟨h1, h2, ?_⟩
    rw [min_eq_left h2, max_eq_right h1]

theorem movedPlayer_position (s : GameState) (dt : ℚ) (dir : Vector2)
    (halive : s.player.isAlive = true) :
    (movedPlayer s dt dir).position =
      ⟨clamp (s.player.position.x + dir.x * 300 * dt) 0 s.worldWidth,
        clamp (s.player.position.y + dir.y * 300 * dt) 0 s.worldHeight⟩ := by
  simp [movedPlayer, updatePlayer, Ninja.update, halive, Vector2.add, Vector2.mul, PLAYER_SPEED]

/-- The player's position after a frame on a running session is the one after the block
"Update player". -/
theorem updateGameState_position (sqrt : ℚ → ℚ) (r0 r1 : Nat) (s : GameState) (dt : ℚ)
    (dir : Vector2) (a d : Bool) (hover : s.isGameOver = false) :
    (updateGameState sqrt r0 r1 s dt dir a d).player.position = (movedPlayer s dt dir).position := by
  obtain ⟨ss, es, sc, t, c, k, n, he, -⟩ := updateGameState_shape sqrt r0 r1 s dt dir a d hover
  rw [he]
  show (hits n _).position = _
  rw [(hits_fields n _).1]

/-- C15: after a frame on a running session with an alive player and non-negative world
bounds, the player's position is the componentwise clamp of the old position plus
`inputDirection * 300 * dt` into `[0, worldWidth] × [0, worldHeight]`, so it lies in that
rectangle; the clamp is `max 0 (min v bound)`; on a dead player `Ninja::update` leaves the
position and the attack cooldown as they are. -/
theorem player_stays_in_world :
    (∀ (sqrt : ℚ → ℚ) (r0 r1 : Nat) (s : GameState) (dt : ℚ) (dir : Vector2) (a d : Bool),
      s.isGameOver = false → s.player.isAlive = true → 0 ≤ s.worldWidth → 0 ≤ s.worldHeight →
      (updateGameState sqrt r0 r1 s dt dir a d).player.position =
        ⟨clamp (s.player.position.x + dir.x * 300 * dt) 0 s.worldWidth,
          clamp (s.player.position.y + dir.y * 300 * dt) 0 s.worldHeight⟩ ∧
      0 ≤ (updateGameState sqrt r0 r1 s dt dir a d).player.position.x ∧
      (updateGameState sqrt r0 r1 s dt dir a d).player.position.x ≤ s.worldWidth ∧
      0 ≤ (updateGameState sqrt r0 r1 s dt dir a d).player.position.y ∧
      (updateGameState sqrt r0 r1 s dt dir a d).player.position.y ≤ s.worldHeight) ∧
    (∀ v w : ℚ, 0 ≤ w → clamp v 0 w = max 0 (min v w)) ∧
    (∀ (p : Ninja) (dt : ℚ) (s : GameState), p.isAlive = false →
      (p.update dt s).position = p.position ∧
      (p.update dt s).attackCooldown = p.attackCooldown) := by
  refine ⟨?_, fun v w hw => (clamp_bounds v w hw).2.2, ?_⟩
  · intro sqrt r0 r1 s dt dir a d hover halive hw hh
    have hp := (updateGameState_position sqrt r0 r1 s dt dir a d hover).trans
      (movedPlayer_position s dt dir halive)
    rw [hp]
    exact ⟨rfl, (clamp_bounds _ _ hw).1, (clamp_bounds _ _ hw).2.1, (clamp_bounds _ _ hh).1,
      (clamp_bounds _ _ hh).2.1⟩
  · intro p dt s h
    simp [Ninja.update, h]

/-- C15 on the constructed session: a frame of `1/60` to the right moves the player to
`(405, 300)`; a frame of `10` to the right stops at the right edge `(1600, 300)`. -/
theorem player_stays_in_world_witness :
    GameState.new.isGameOver = false ∧ GameState.new.player.isAlive = true ∧
    (0 : ℚ) ≤ GameState.new.worldWidth ∧ (0 : ℚ) ≤ GameState.new.worldHeight ∧
    (updateGameState Rat.sqrt 0 0 GameState.new (1 / 60) ⟨1, 0⟩ false false).player.position
      = ⟨405, 300⟩ ∧
    (updateGameState Rat.sqrt 0 0 GameState.new 10 ⟨1, 0⟩ false false).player.position
      = ⟨1600, 300⟩ ∧
    (updateGameState Rat.sqrt 0 0 GameState.new 10 ⟨1, 0⟩ false false).player.position.x
      ≤ GameState.new.worldWidth :=
  ⟨rfl, rfl, by decide!, by decide!, by decide!, by decide!,
    (player_stays_in_world.1 Rat.sqrt 0 0 GameState.new 10 ⟨1, 0⟩ false false rfl rfl
      (by decide!) (by decide!)).2.2.1⟩

/-! ## Edge spawn placement -/

theorem firstInactiveEnemy_eq_none (l : List Enemy) :
    firstInactiveEnemy l = none ↔ ∀ e ∈ l, e.active = true := by
  induction l with
  | nil => simp [firstInactiveEnemy]
  | cons a rest ih =>
    cases ha : a.active <;> simp [firstInactiveEnemy, ha, ih]

theorem firstInactiveEnemy_eq_some (l : List Enemy) (i : Nat) (e0 : Enemy)
    (hi : l[i]? = some e0) (hfree : e0.active = false)
    (hfirst : ∀ j, j < i → ∀ e, l[j]? = some e → e.active = true) :
    firstInactiveEnemy l = some i := by
  induction l generalizing i with
  | nil => simp at hi
  | cons a rest ih =>
    cases i with
    | zero =>
      simp only [List.getElem?_cons_zero, Option.some.injEq] at hi
      simp [firstInactiveEnemy, hi, hfree]
    | succ i =>
      have ha : a.active = true := hfirst 0 (Nat.succ_pos i) a (by simp)
      have hrec : firstInactiveEnemy rest = some i := by
        refine ih i (by simpa using hi) ?_
        intro j hj e he
        exact hfirst (j + 1) (Nat.succ_lt_succ hj) e (by simpa using he)
      simp [firstInactiveEnemy, ha, hrec]

/-- The slot after `spawnAt`: only position, health, active flag and damage cooldown are
written. -/
theorem spawnAt_eq (r0 r1 : Nat) (w h : ℚ) (e : Enemy) :
    spawnAt r0 r1 w h e =
      { e with position := (spawnAt r0 r1 w h e).position, health := e.maxHealth, active := true,
               damageCooldown := 0 } := by
  simp only [spawnAt]
  split_ifs <;> rfl

theorem tmod_four (r0 : Nat) : Int.tmod (r0 : Int) 4 = ((r0 % 4 : Nat) : Int) := by
  rw [Int.tmod_eq_emod (by positivity) (by norm_num)]
  simp

theorem tmod_bound (r1 : Nat) (w : ℚ) (hw : 1 ≤ w) :
    Int.tmod (r1 : Int) (floatToInt w) = (r1 : Int) % ⌊w⌋ ∧
    (0 : ℚ) ≤ (((r1 : Int) % ⌊w⌋ : Int) : ℚ) ∧ (((r1 : Int) % ⌊w⌋ : Int) : ℚ) < w := by
  have h0 : (0 : ℚ) ≤ w := le_trans zero_le_one hw
  have hf : floatToInt w = ⌊w⌋ := by simp [floatToInt, h0]
  have h1 : (1 : Int) ≤ ⌊w⌋ := Int.le_floor.2 (by simpa using hw)
  have hpos : (0 : Int) < ⌊w⌋ := by omega
  refine ⟨?_, ?_, ?_⟩
  · rw [hf, Int.tmod_eq_emod (by positivity) (le_of_lt hpos)]
  · exact_mod_cast Int.emod_nonneg _ (ne_of_gt hpos)
  · have h2 : (r1 : Int) % ⌊w⌋ < ⌊w⌋ := Int.emod_lt_of_pos _ hpos
    have h3 : (((r1 : Int) % ⌊w⌋ : Int) : ℚ) < ((⌊w⌋ : Int) : ℚ) := by exact_mod_cast h2
    exact lt_of_lt_of_le h3 (Int.floor_le w)

theorem spawnAt_position (r0 r1 : Nat) (w h : ℚ) (e : Enemy) (hw : 1 ≤ w) (hh : 1 ≤ h) :
    (r0 % 4 = 0 → (spawnAt r0 r1 w h e).position = ⟨(((r1 : Int) % ⌊w⌋ : Int) : ℚ), -50⟩) ∧
    (r0 % 4 = 1 → (spawnAt r0 r1 w h e).position = ⟨w + 50, (((r1 : Int) % ⌊h⌋ : Int) : ℚ)⟩) ∧
    (r0 % 4 = 2 → (spawnAt r0 r1 w h e).position = ⟨(((r1 : Int) % ⌊w⌋ : Int) : ℚ), h + 50⟩) ∧
    (r0 % 4 = 3 → (spawnAt r0 r1 w h e).position = ⟨-50, (((r1 : Int) % ⌊h⌋ : Int) : ℚ)⟩) := by
  have tw := (tmod_bound r1 w hw).1
  have th := (tmod_bound r1 h hh).1
  refine ⟨?_, ?_, ?_, ?_⟩ <;> intro hs <;>
    simp [spawnAt, tmod_four, hs, tw, th]

/-- C16: with the two draws `r0` (side) and `r1` (coordinate) and world bounds `≥ 1`,
`GameState::spawnEnemy` writes only the first inactive enemy slot `i`: health becomes the
maximal health, the slot is active, the damage cooldown is 0, and the position is
`(r1 mod ⌊worldWidth⌋, -50)`, `(worldWidth + 50, r1 mod ⌊worldHeight⌋)`,
`(r1 mod ⌊worldWidth⌋, worldHeight + 50)` or `(-50, r1 mod ⌊worldHeight⌋)` for
`r0 mod 4 = 0, 1, 2, 3`; the free coordinate lies in `[0, bound)` and the position is within
the 100-unit leash margin. When every slot is active `spawnEnemy` changes nothing. -/
theorem spawnEnemy_edge_placement :
    (∀ (s : GameState) (r0 r1 : Nat) (i : Nat) (e : Enemy),
      1 ≤ s.worldWidth → 1 ≤ s.worldHeight → s.enemies[i]? = some e → e.active = false →
      (∀ j, j < i → ∀ e2, s.enemies[j]? = some e2 → e2.active = true) →
      ∃ pos : Vector2,
        s.spawnEnemy r0 r1 =
          { s with enemies := (s.enemies.set i
              { e with position := pos, health := e.maxHealth, active := true,
                       damageCooldown := 0 }) } ∧
        (r0 % 4 = 0 → pos = ⟨(((r1 : Int) % ⌊s.worldWidth⌋ : Int) : ℚ), -50⟩) ∧
        (r0 % 4 = 1 → pos = ⟨s.worldWidth + 50, (((r1 : Int) % ⌊s.worldHeight⌋ : Int) : ℚ)⟩) ∧
        (r0 % 4 = 2 → pos = ⟨(((r1 : Int) % ⌊s.worldWidth⌋ : Int) : ℚ), s.worldHeight + 50⟩) ∧
        (r0 % 4 = 3 → pos = ⟨-50, (((r1 : Int) % ⌊s.worldHeight⌋ : Int) : ℚ)⟩) ∧
        ((0 : ℚ) ≤ (((r1 : Int) % ⌊s.worldWidth⌋ : Int) : ℚ) ∧
          (((r1 : Int) % ⌊s.worldWidth⌋ : Int) : ℚ) < s.worldWidth) ∧
        ((0 : ℚ) ≤ (((r1 : Int) % ⌊s.worldHeight⌋ : Int) : ℚ) ∧
          (((r1 : Int) % ⌊s.worldHeight⌋ : Int) : ℚ) < s.worldHeight) ∧
        ¬ (pos.x < -100 ∨ pos.x > s.worldWidth + 100 ∨
            pos.y < -100 ∨ pos.y > s.worldHeight + 100)) ∧
    (∀ (s : GameState) (r0 r1 : Nat), (∀ e ∈ s.enemies, e.active = true) →
      s.spawnEnemy r0 r1 = s) := by
  refine ⟨?_, ?_⟩
  · intro s r0 r1 i e hw hh hi hfree hfirst
    have hslot : s.getAvailableEnemy = some i :=
      firstInactiveEnemy_eq_some s.enemies i e hi hfree hfirst
    obtain ⟨p0, p1, p2, p3⟩ := spawnAt_position r0 r1 s.worldWidth s.worldHeight e hw hh
    obtain ⟨-, bw0, bw1⟩ := tmod_bound r1 s.worldWidth hw
    obtain ⟨-, bh0, bh1⟩ := tmod_bound r1 s.worldHeight hh
    refine ⟨(spawnAt r0 r1 s.worldWidth s.worldHeight e).position, ?_, p0, p1, p2, p3,
      ⟨bw0, bw1⟩, ⟨bh0, bh1⟩, ?_⟩
    · simp only [GameState.spawnEnemy, hslot, hi]
      rw [← spawnAt_eq]
    · have hlt : r0 % 4 < 4 := Nat.mod_lt _ (by norm_num)
      have hcase : r0 % 4 = 0 ∨ r0 % 4 = 1 ∨ r0 % 4 = 2 ∨ r0 % 4 = 3 := by omega
      rcases hcase with h | h | h | h
      · rw [p0 h]
        simp only [not_or, not_lt]
        refine ⟨?_, ?_, ?_, ?_⟩ <;> linarith
      · rw [p1 h]
        simp only [not_or, not_lt]
        refine ⟨?_, ?_, ?_, ?_⟩ <;> linarith
      · rw [p2 h]
        simp only [not_or, not_lt]
        refine ⟨?_, ?_, ?_, ?_⟩ <;> linarith
      · rw [p3 h]
        simp only [not_or, not_lt]
        refine ⟨?_, ?_, ?_, ?_⟩ <;> linarith
  · intro s r0 r1 hall
    have hnone : s.getAvailableEnemy = none := (firstInactiveEnemy_eq_none _).2 hall
    simp [GameState.spawnEnemy, hnone]

/-- C16 on the constructed session (1600 by 900, every slot inactive) with draws `r0 = 6`
(bottom edge) and `r1 = 2000`: slot 0 is placed at `(400, 950)`. -/
theorem spawnEnemy_edge_placement_witness :
    (1 : ℚ) ≤ GameState.new.worldWidth ∧ (1 : ℚ) ≤ GameState.new.worldHeight ∧
    GameState.new.enemies[0]? = some ({} : Enemy) ∧
    (∃ pos : Vector2,
      GameState.new.spawnEnemy 6 2000 =
        { GameState.new with enemies := (GameState.new.enemies.set 0
            { ({} : Enemy) with position := pos, health := 30, active := true,
                                damageCooldown := 0 }) } ∧
      pos = ⟨(((2000 : Nat) : Int) % ⌊GameState.new.worldWidth⌋ : Int), GameState.new.worldHeight + 50⟩) ∧
    (GameState.new.spawnEnemy 6 2000).enemies.head? =
      some { position := ⟨400, 950⟩, health := 30, active := true, damageCooldown := 0 } :=
  ⟨by decide!, by decide!, by decide!,
    (spawnEnemy_edge_placement.1 GameState.new 6 2000 0 ({} : Enemy) (by decide!) (by decide!)
      (by decide!) rfl (fun j hj => absurd hj (Nat.not_lt_zero j))).imp
      (fun pos h => ⟨h.1, h.2.2.2.1 (by decide)⟩),
    by decide!⟩

/-! ## Live projectiles -/

theorem isOutOfBounds_eq_false (sh : Shuriken) (w h : ℚ) :
    sh.isOutOfBounds w h = false ↔ inWorld sh.position w h := by
  simp [Shuriken.isOutOfBounds, inWorld]
  tauto

/-- The slot after the loop iteration of an active shuriken. -/
theorem shurikenStep_fst (sqrt : ℚ → ℚ) (dt : ℚ) (sh : Shuriken) (st : GameState)
    (ha : sh.active = true) :
    (shurikenStep sqrt dt sh st).1 =
      if (sh.update dt).isOutOfBounds st.worldWidth st.worldHeight = true then
        { sh.update dt with active := false }
      else if (hitScan sqrt (sh.update dt).position st.enemies).2.1 = true then
        { sh.update dt with active := false }
      else sh.update dt := by
  simp only [shurikenStep, ha, Bool.not_true, Bool.false_eq_true, if_false]
  split_ifs <;> rfl

/-- A slot that is active after its loop iteration has a positive lifetime and lies in the
world. -/
theorem shurikenStep_live (sqrt : ℚ → ℚ) (dt : ℚ) (sh : Shuriken) (st : GameState)
    (h : (shurikenStep sqrt dt sh st).1.active = true) :
    0 < (shurikenStep sqrt dt sh st).1.lifetime ∧
    inWorld (shurikenStep sqrt dt sh st).1.position st.worldWidth st.worldHeight := by
  cases ha : sh.active with
  | false => simp [shurikenStep, ha] at h
  | true =>
    rw [shurikenStep_fst sqrt dt sh st ha] at h ⊢
    split_ifs at h ⊢ with hoob hhit
    have hin := (isOutOfBounds_eq_false _ _ _).1 (Bool.eq_false_iff.2 hoob)
    refine ⟨?_, hin⟩
    simp only [Shuriken.update, ha, Bool.not_true, Bool.false_eq_true, if_false] at h ⊢
    by_contra hneg
    simp [not_lt.mp hneg] at h

theorem shurikenStep_world (sqrt : ℚ → ℚ) (dt : ℚ) (sh : Shuriken) (st : GameState) :
    (shurikenStep sqrt dt sh st).2.worldWidth = st.worldWidth ∧
    (shurikenStep sqrt dt sh st).2.worldHeight = st.worldHeight := by
  obtain ⟨es, k, sc, h, -⟩ := shurikenStep_state sqrt dt sh st
  rw [h]
  exact ⟨rfl, rfl⟩

theorem shurikenLoop_live (sqrt : ℚ → ℚ) (dt : ℚ) (l : List Shuriken) (st : GameState) :
    ∀ sh ∈ (shurikenLoop sqrt dt l st).1, sh.active = true →
      0 < sh.lifetime ∧ inWorld sh.position st.worldWidth st.worldHeight := by
  induction l generalizing st with
  | nil => simp [shurikenLoop]
  | cons a rest ih =>
    intro sh hmem hact
    simp only [shurikenLoop, List.mem_cons] at hmem
    rcases hmem with rfl | hmem
    · exact shurikenStep_live sqrt dt a st hact
    · have := ih (shurikenStep sqrt dt a st).2 sh hmem hact
      rw [(shurikenStep_world sqrt dt a st).1, (shurikenStep_world sqrt dt a st).2] at this
      exact this

/-- C18: after a frame on a session that was not game-over, every active shuriken slot has
a positive lifetime and a position in `[0, worldWidth] × [0, worldHeight]`; a shuriken
launched in this frame is advanced and tested in the same frame, so it is included. -/
theorem live_projectiles_invariant (sqrt : ℚ → ℚ) (r0 r1 : Nat) (s : GameState) (dt : ℚ)
    (inputDirection : Vector2) (wantsToAttack wantsToDash : Bool)
    (hover : s.isGameOver = false) :
    ∀ sh ∈ (updateGameState sqrt r0 r1 s dt inputDirection wantsToAttack wantsToDash).shurikens,
      sh.active = true →
        0 < sh.lifetime ∧ 0 ≤ sh.position.x ∧ sh.position.x ≤ s.worldWidth ∧
        0 ≤ sh.position.y ∧ sh.position.y ≤ s.worldHeight := by
  obtain ⟨ss, es, sc, t, c, k, n, he, -, -, -, hss, -⟩ :=
    updateGameState_shape sqrt r0 r1 s dt inputDirection wantsToAttack wantsToDash hover
  obtain ⟨ss1, c1, h1, -, -⟩ := handleAttack_eq sqrt
    (updatePlayer { s with gameTime := f32 (s.gameTime + dt) } dt inputDirection) inputDirection
    wantsToAttack
  intro sh hmem hact
  rw [he] at hmem
  have hmem2 : sh ∈ ss := hmem
  rw [hss] at hmem2
  have := shurikenLoop_live sqrt dt _ _ sh hmem2 hact
  rw [h1] at this
  exact this

/-- C18 on a session with a shuriken about to leave the world and one about to expire, in a
frame that also launches a new one: at the end only the new one (slot 2) is active. -/
theorem live_projectiles_invariant_witness :
    flightState.isGameOver = false ∧
    (updateGameState Rat.sqrt 0 0 flightState (1 / 60) ⟨0, 0⟩ true false).shurikens.map
      (fun sh => sh.active) =
        [false, false, true, false, false, false, false, false, false, false] ∧
    ∀ sh ∈ (updateGameState Rat.sqrt 0 0 flightState (1 / 60) ⟨0, 0⟩ true false).shurikens,
      sh.active = true →
        0 < sh.lifetime ∧ 0 ≤ sh.position.x ∧ sh.position.x ≤ flightState.worldWidth ∧
        0 ≤ sh.position.y ∧ sh.position.y ≤ flightState.worldHeight :=
  ⟨rfl, by decide!,
    live_projectiles_invariant Rat.sqrt 0 0 flightState (1 / 60) ⟨0, 0⟩ true false rfl⟩

/-! ## The collision test of a projectile -/

/-- The inner loop when slot `i` holds the first enemy in hit range: that enemy takes
`takeDamage(10)`, nothing else changes, and the loop reports the hit and whether it killed. -/
theorem hitScan_hit (sqrt : ℚ → ℚ) (pos : Vector2) (l : List Enemy) (i : Nat) (e : Enemy)
    (hi : l[i]? = some e) (hr : inHitRange sqrt pos e = true)
    (hfirst : ∀ j, j < i → ∀ e2, l[j]? = some e2 → inHitRange sqrt pos e2 = false) :
    hitScan sqrt pos l = (l.set i (e.takeDamage 10), true, !(e.takeDamage 10).active) := by
  induction l generalizing i with
  | nil => simp at hi
  | cons a rest ih =>
    cases i with
    | zero =>
      simp only [List.getElem?_cons_zero, Option.some.injEq] at hi
      subst hi
      simp only [inHitRange, Bool.and_eq_true, decide_eq_true_eq] at hr
      simp [hitScan, hr.1, hr.2]
    | succ i =>
      have ha : inHitRange sqrt pos a = false := hfirst 0 (Nat.succ_pos i) a (by simp)
      have hrec := ih i (by simpa using hi)
        (fun j hj e2 he2 => hfirst (j + 1) (Nat.succ_lt_succ hj) e2 (by simpa using he2))
      simp only [inHitRange, Bool.and_eq_false_iff, decide_eq_false_iff_not] at ha
      simp only [hitScan, List.set_cons_succ]
      rcases ha with ha | ha
      · simp [ha, hrec]
      · cases hact : a.active with
        | false => simp [hrec]
        | true => simp [ha, hrec]

/-- The inner loop when no enemy is in hit range: nothing changes and no hit is reported. -/
theorem hitScan_miss (sqrt : ℚ → ℚ) (pos : Vector2) (l : List Enemy)
    (hnone : ∀ e ∈ l, inHitRange sqrt pos e = false) :
    hitScan sqrt pos l = (l, false, false) := by
  induction l with
  | nil => rfl
  | cons a rest ih =>
    have ha : inHitRange sqrt pos a = false := hnone a (List.mem_cons_self _ _)
    have hrec := ih (fun e he => hnone e (List.mem_cons_of_mem _ he))
    simp only [inHitRange, Bool.and_eq_false_iff, decide_eq_false_iff_not] at ha
    simp only [hitScan]
    rcases ha with ha | ha
    · simp [ha, hrec]
    · cases hact : a.active with
      | false => simp [hrec]
      | true => simp [ha, hrec]

/-- The loop iteration of an active shuriken that is in the world after its advance and has
the first enemy in hit range in slot `i`. -/
theorem shurikenStep_hit (sqrt : ℚ → ℚ) (dt : ℚ) (sh : Shuriken) (st : GameState) (i : Nat)
    (e : Enemy) (hact : sh.active = true)
    (hin : (sh.update dt).isOutOfBounds st.worldWidth st.worldHeight = false)
    (hi : st.enemies[i]? = some e) (hr : inHitRange sqrt (sh.update dt).position e = true)
    (hfirst : ∀ j, j < i → ∀ e2, st.enemies[j]? = some e2 →
      inHitRange sqrt (sh.update dt).position e2 = false) :
    shurikenStep sqrt dt sh st =
      ({ sh.update dt with active := false },
        if (e.takeDamage 10).active = false then
          { st with
            enemies := st.enemies.set i (e.takeDamage 10)
            player := { st.player with kills := st.player.kills + 1 }
            score := st.score + 100 }
        else { st with enemies := st.enemies.set i (e.takeDamage 10) }) := by
  have hs := hitScan_hit sqrt (sh.update dt).position st.enemies i e hi hr hfirst
  simp only [shurikenStep, hact, hin, hs, Bool.not_true, Bool.false_eq_true, if_false, if_true]
  cases (e.takeDamage 10).active <;> simp

/-- The loop iteration of an active shuriken that is in the world after its advance and has
no enemy in hit range. -/
theorem shurikenStep_miss (sqrt : ℚ → ℚ) (dt : ℚ) (sh : Shuriken) (st : GameState)
    (hact : sh.active = true)
    (hin : (sh.update dt).isOutOfBounds st.worldWidth st.worldHeight = false)
    (hnone : ∀ e ∈ st.enemies, inHitRange sqrt (sh.update dt).position e = false) :
    shurikenStep sqrt dt sh st = (sh.update dt, st) := by
  have hs := hitScan_miss sqrt (sh.update dt).position st.enemies hnone
  simp [shurikenStep, hact, hin, hs]

/-- The loop over the pool visits the slots in order: the iteration of a slot runs
`shurikenStep` on the state left by the slots before it. -/
theorem shurikenLoop_append (sqrt : ℚ → ℚ) (dt : ℚ) (pre post : List Shuriken) (sh : Shuriken)
    (st : GameState) :
    shurikenLoop sqrt dt (pre ++ sh :: post) st =
      ((shurikenLoop sqrt dt pre st).1 ++
          (shurikenStep sqrt dt sh (shurikenLoop sqrt dt pre st).2).1 ::
          (shurikenLoop sqrt dt post
            (shurikenStep sqrt dt sh (shurikenLoop sqrt dt pre st).2).2).1,
        (shurikenLoop sqrt dt post
          (shurikenStep sqrt dt sh (shurikenLoop sqrt dt pre st).2).2).2) := by
  induction pre generalizing st with
  | nil => simp [shurikenLoop]
  | cons a rest ih => simp [shurikenLoop, ih]

/-- C14: for a shuriken that the loop visits while active and that lies in the world after
its advance (`st` is the state left by the slots before it, see `shurikenLoop_append`): if
slot `i` holds the first enemy, in pool order, that is active and at distance below 25, that
enemy takes `takeDamage(10)`, the shuriken becomes inactive and every other enemy slot is
left as it was, whether nearer or also in range; if no enemy is in range, nothing is damaged
and the shuriken keeps the flag its own advance left. -/
theorem single_target_first_hit (sqrt : ℚ → ℚ) (dt : ℚ) (sh : Shuriken) (st : GameState)
    (hact : sh.active = true)
    (hin : (sh.update dt).isOutOfBounds st.worldWidth st.worldHeight = false) :
    (∀ (i : Nat) (e : Enemy), st.enemies[i]? = some e →
      inHitRange sqrt (sh.update dt).position e = true →
      (∀ j, j < i → ∀ e2, st.enemies[j]? = some e2 →
        inHitRange sqrt (sh.update dt).position e2 = false) →
      (shurikenStep sqrt dt sh st).2.enemies = st.enemies.set i (e.takeDamage 10) ∧
      (e.takeDamage 10).health = max 0 (e.health - 10) ∧
      (shurikenStep sqrt dt sh st).1.active = false ∧
      (∀ j, j ≠ i → (shurikenStep sqrt dt sh st).2.enemies[j]? = st.enemies[j]?)) ∧
    ((∀ e ∈ st.enemies, inHitRange sqrt (sh.update dt).position e = false) →
      (shurikenStep sqrt dt sh st).2 = st ∧ (shurikenStep sqrt dt sh st).1 = sh.update dt) := by
  refine ⟨?_, ?_⟩
  · intro i e hi hr hfirst
    have hstep := shurikenStep_hit sqrt dt sh st i e hact hin hi hr hfirst
    have hen : (shurikenStep sqrt dt sh st).2.enemies = st.enemies.set i (e.takeDamage 10) := by
      rw [hstep]
      split_ifs <;> rfl
    refine ⟨hen, ?_, by rw [hstep], ?_⟩
    · simp only [Enemy.takeDamage]
      split_ifs with h
      · exact (max_eq_left h).symm
      · exact (max_eq_right (le_of_lt (not_le.mp h))).symm
    · intro j hj
      rw [hen, List.getElem?_set]
      simp [Ne.symm hj]
  · intro hnone
    rw [shurikenStep_miss sqrt dt sh st hact hin hnone]
    exact ⟨rfl, rfl⟩

/-- C14 on the session with two targets: the enemy in slot 1 at distance 15 is hit and
killed, the nearer enemy in slot 2 at distance 0 is untouched, in the loop iteration and in
the whole frame. -/
theorem single_target_first_hit_witness :
    (Shuriken.update { position := ⟨100, 100⟩, direction := ⟨1, 0⟩, active := true, lifetime := 1 }
      (1 / 100)).position = ⟨105, 100⟩ ∧
    inHitRange Rat.sqrt ⟨105, 100⟩ { position := ⟨105, 100⟩, active := true } = true ∧
    (shurikenStep Rat.sqrt (1 / 100)
      { position := ⟨100, 100⟩, direction := ⟨1, 0⟩, active := true, lifetime := 1 }
      twoTargetsState).2.enemies =
        twoTargetsState.enemies.set 1
          (Enemy.takeDamage { position := ⟨120, 100⟩, health := 10, active := true } 10) ∧
    (updateGameState Rat.sqrt 0 0 twoTargetsState (1 / 100) ⟨0, 0⟩ false false).enemies.map
        (fun e => (e.health, e.active)) =
      (30, false) :: (0, false) :: (30, true) :: List.replicate 17 (30, false) ∧
    (updateGameState Rat.sqrt 0 0 twoTargetsState (1 / 100) ⟨0, 0⟩ false false).shurikens.map
        (fun sh => sh.active) = List.replicate 10 false :=
  ⟨by decide!, by decide!,
    ((single_target_first_hit Rat.sqrt (1 / 100)
      { position := ⟨100, 100⟩, direction := ⟨1, 0⟩, active := true, lifetime := 1 }
      twoTargetsState rfl (by decide!)).1 1
      { position := ⟨120, 100⟩, health := 10, active := true } (by decide!) (by decide!)
      (by
        intro j hj e2 he2
        have hj0 : j = 0 := by omega
        subst hj0
        have h0 : twoTargetsState.enemies[0]? = some { position := ⟨105, 100⟩, active := false } := by
          decide!
        rw [h0] at he2
        cases he2
        decide!)).1,
    by decide!, by decide!⟩

/-- C20: a shuriken that the loop visits while active, with lifetime at most `dt` (so its own
advance deactivates it), in the world after the advance and with the first enemy in hit
range in slot `i`, still hits: that enemy takes `takeDamage(10)`, and when its health
reaches 0 it is deactivated and the kill counter grows by 1 and the score by 100 (otherwise
both are unchanged). -/
theorem expiring_projectile_still_hits (sqrt : ℚ → ℚ) (dt : ℚ) (sh : Shuriken) (st : GameState)
    (i : Nat) (e : Enemy) (hact : sh.active = true) (hexp : sh.lifetime ≤ dt)
    (hin : (sh.update dt).isOutOfBounds st.worldWidth st.worldHeight = false)
    (hi : st.enemies[i]? = some e) (hr : inHitRange sqrt (sh.update dt).position e = true)
    (hfirst : ∀ j, j < i → ∀ e2, st.enemies[j]? = some e2 →
      inHitRange sqrt (sh.update dt).position e2 = false) :
    (sh.update dt).active = false ∧
    (shurikenStep sqrt dt sh st).2.enemies = st.enemies.set i (e.takeDamage 10) ∧
    (e.takeDamage 10).health = max 0 (e.health - 10) ∧
    (e.health - 10 ≤ 0 →
      (e.takeDamage 10).active = false ∧
      (shurikenStep sqrt dt sh st).2.player.kills = st.player.kills + 1 ∧
      (shurikenStep sqrt dt sh st).2.score = st.score + 100) ∧
    (¬ e.health - 10 ≤ 0 →
      (shurikenStep sqrt dt sh st).2.player.kills = st.player.kills ∧
      (shurikenStep sqrt dt sh st).2.score = st.score) := by
  have hstep := shurikenStep_hit sqrt dt sh st i e hact hin hi hr hfirst
  have hea : e.active = true := by
    simp only [inHitRange, Bool.and_eq_true] at hr
    exact hr.1
  refine ⟨?_, ?_, ?_, ?_, ?_⟩
  · have : sh.lifetime - dt ≤ 0 := by linarith
    simp [Shuriken.update, hact, this]
  · rw [hstep]
    split_ifs <;> rfl
  · simp only [Enemy.takeDamage]
    split_ifs with h
    · exact (max_eq_left h).symm
    · exact (max_eq_right (le_of_lt (not_le.mp h))).symm
  · intro hle
    have hk : (e.takeDamage 10).active = false := by simp [Enemy.takeDamage, hle]
    rw [hstep]
    simp [hk]
  · intro hgt
    have hk : (e.takeDamage 10).active = true := by simp [Enemy.takeDamage, hgt, hea]
    rw [hstep]
    simp [hk]

/-- C20 on the session with a shuriken of lifetime `1/100` next to an enemy of health 10, in
a frame of `1/60`: the advance deactivates the shuriken, the enemy is killed all the same,
and the frame ends with one kill and score 100. -/
theorem expiring_projectile_still_hits_witness :
    ((1 / 100 : ℚ) ≤ 1 / 60) ∧
    (Shuriken.update
      { position := ⟨100, 100⟩, direction := ⟨1, 0⟩, active := true, lifetime := 1 / 100 }
      (1 / 60)).active = false ∧
    (shurikenStep Rat.sqrt (1 / 60)
      { position := ⟨100, 100⟩, direction := ⟨1, 0⟩, active := true, lifetime := 1 / 100 }
      lastGaspState).2.player.kills = lastGaspState.player.kills + 1 ∧
    (updateGameState Rat.sqrt 0 0 lastGaspState (1 / 60) ⟨0, 0⟩ false false).player.kills = 1 ∧
    (updateGameState Rat.sqrt 0 0 lastGaspState (1 / 60) ⟨0, 0⟩ false false).score = 100 ∧
    (updateGameState Rat.sqrt 0 0 lastGaspState (1 / 60) ⟨0, 0⟩ false false).enemies.head? =
      some { position := ⟨110, 100⟩, health := 0, active := false } :=
  ⟨by decide!, by decide!,
    ((expiring_projectile_still_hits Rat.sqrt (1 / 60)
      { position := ⟨100, 100⟩, direction := ⟨1, 0⟩, active := true, lifetime := 1 / 100 }
      lastGaspState 0 { position := ⟨110, 100⟩, health := 10, active := true } rfl (by decide!)
      (by decide!) (by decide!) (by decide!)
      (fun j hj => absurd hj (Nat.not_lt_zero j))).2.2.2.1 (by decide)).2.1,
    by decide!, by decide!, by decide!⟩

/-! ## Kills, score and the enemy tally -/

theorem noRevive_refl (l : List Enemy) : NoRevive l l := by
  induction l with
  | nil => exact List.Forall₂.nil
  | cons a rest ih => exact List.Forall₂.cons (fun h => h) ih

theorem noRevive_trans {l1 l2 l3 : List Enemy} (h12 : NoRevive l1 l2) (h23 : NoRevive l2 l3) :
    NoRevive l1 l3 := by
  induction h12 generalizing l3 with
  | nil => cases h23; exact List.Forall₂.nil
  | cons hab _ ih =>
    cases h23 with
    | cons hbc hrest => exact List.Forall₂.cons (fun h => hab (hbc h)) (ih hrest)

/-- Without revival the slots that went from active to inactive are counted by the
difference of the active counts. -/
theorem deactivated_eq {l1 l2 : List Enemy} (h : NoRevive l1 l2) :
    (deactivated l1 l2 : Int) = (countActive l1 : Int) - (countActive l2 : Int) := by
  induction h with
  | nil => simp [deactivated, countActive]
  | @cons b a l1 l2 hab _ ih =>
    simp only [deactivated, countActive, List.zip_cons_cons, List.countP_cons] at ih ⊢
    cases hb : b.active <;> cases ha : a.active
    · simp [ih]
    · rw [ha, hb] at hab
      exact absurd (hab rfl) (by simp)
    · simp only [Bool.not_false, Bool.and_self, if_true, Bool.false_eq_true, if_false]
      push_cast
      omega
    · simp only [Bool.not_true, Bool.and_false, Bool.false_eq_true, if_false, if_true]
      push_cast
      omega

theorem countActive_le {l1 l2 : List Enemy} (h : NoRevive l1 l2) :
    countActive l2 ≤ countActive l1 := by
  have := deactivated_eq h
  omega

/-- The inner loop revives nobody, and the active count drops by one exactly when it reports
a kill. -/
theorem hitScan_kills (sqrt : ℚ → ℚ) (pos : Vector2) (l : List Enemy) :
    NoRevive l (hitScan sqrt pos l).1 ∧
    (countActive l : Int) - (countActive (hitScan sqrt pos l).1 : Int) =
      if (hitScan sqrt pos l).2.2 = true then 1 else 0 := by
  induction l with
  | nil => exact ⟨List.Forall₂.nil, by simp [hitScan, countActive]⟩
  | cons e rest ih =>
    obtain ⟨ih1, ih2⟩ := ih
    simp only [countActive] at ih2 ⊢
    cases hact : e.active with
    | false =>
      have hs : hitScan sqrt pos (e :: rest) =
          (e :: (hitScan sqrt pos rest).1, (hitScan sqrt pos rest).2.1,
            (hitScan sqrt pos rest).2.2) := by simp [hitScan, hact]
      rw [hs]
      exact ⟨List.Forall₂.cons (fun h => h) ih1, by simpa [List.countP_cons, hact] using ih2⟩
    | true =>
      by_cases hd : sqrt ((pos.x - e.position.x) * (pos.x - e.position.x) +
          (pos.y - e.position.y) * (pos.y - e.position.y)) < 25
      · have hs : hitScan sqrt pos (e :: rest) =
            (e.takeDamage 10 :: rest, true, !(e.takeDamage 10).active) := by
          simp [hitScan, hact, hd]
        rw [hs]
        refine ⟨List.Forall₂.cons (fun _ => hact) (noRevive_refl rest), ?_⟩
        simp only [List.countP_cons, hact, if_true]
        cases (e.takeDamage 10).active <;> simp
      · have hs : hitScan sqrt pos (e :: rest) =
            (e :: (hitScan sqrt pos rest).1, (hitScan sqrt pos rest).2.1,
              (hitScan sqrt pos rest).2.2) := by simp [hitScan, hact, hd]
        rw [hs]
        exact ⟨List.Forall₂.cons (fun h => h) ih1, by simpa [List.countP_cons, hact] using ih2⟩

theorem killAccount_refl (st : GameState) : KillAccount st st :=
  ⟨by simp, by simp, noRevive_refl _⟩

theorem killAccount_trans {s1 s2 s3 : GameState} (h12 : KillAccount s1 s2)
    (h23 : KillAccount s2 s3) : KillAccount s1 s3 := by
  obtain ⟨a1, a2, a3⟩ := h12
  obtain ⟨b1, b2, b3⟩ := h23
  exact ⟨by linarith, by linarith, noRevive_trans a3 b3⟩

/-- The state after the loop iteration of an active shuriken. -/
theorem shurikenStep_snd (sqrt : ℚ → ℚ) (dt : ℚ) (sh : Shuriken) (st : GameState)
    (ha : sh.active = true) :
    (shurikenStep sqrt dt sh st).2 =
      if (sh.update dt).isOutOfBounds st.worldWidth st.worldHeight = true then st
      else if (hitScan sqrt (sh.update dt).position st.enemies).2.2 = true then
        { st with
          enemies := (hitScan sqrt (sh.update dt).position st.enemies).1
          player := { st.player with kills := st.player.kills + 1 }
          score := st.score + 100 }
      else { st with enemies := (hitScan sqrt (sh.update dt).position st.enemies).1 } := by
  simp only [shurikenStep, ha, Bool.not_true, Bool.false_eq_true, if_false]
  split_ifs <;> rfl

theorem shurikenStep_killAccount (sqrt : ℚ → ℚ) (dt : ℚ) (sh : Shuriken) (st : GameState) :
    KillAccount st (shurikenStep sqrt dt sh st).2 := by
  cases ha : sh.active with
  | false =>
    have : (shurikenStep sqrt dt sh st).2 = st := by simp [shurikenStep, ha]
    rw [this]
    exact killAccount_refl st
  | true =>
    rw [shurikenStep_snd sqrt dt sh st ha]
    obtain ⟨hn, hc⟩ := hitScan_kills sqrt (sh.update dt).position st.enemies
    split_ifs with hoob hk
    · exact killAccount_refl st
    · rw [if_pos hk] at hc
      refine ⟨?_, ?_, hn⟩
      · show st.score + 100 - st.score = 100 * (st.player.kills + 1 - st.player.kills)
        ring
      · show st.player.kills + 1 - st.player.kills = _
        rw [hc]
        ring
    · rw [if_neg hk] at hc
      refine ⟨?_, ?_, hn⟩
      · show st.score - st.score = 100 * (st.player.kills - st.player.kills)
        ring
      · show st.player.kills - st.player.kills = _
        rw [hc]
        ring

theorem shurikenLoop_killAccount (sqrt : ℚ → ℚ) (dt : ℚ) (l : List Shuriken) (st : GameState) :
    KillAccount st (shurikenLoop sqrt dt l st).2 := by
  induction l generalizing st with
  | nil => exact killAccount_refl st
  | cons a rest ih =>
    simp only [shurikenLoop]
    exact killAccount_trans (shurikenStep_killAccount sqrt dt a st) (ih _)

theorem updateShurikens_killAccount (sqrt : ℚ → ℚ) (st : GameState) (dt : ℚ) :
    KillAccount st (updateShurikens sqrt st dt) :=
  shurikenLoop_killAccount sqrt dt st.shurikens st

/-- One iteration of the enemy loop revives nobody and adds one to the tally exactly when
the slot is active afterwards. -/
theorem enemyStep_tally (sqrt : ℚ → ℚ) (dt : ℚ) (e : Enemy) (st : GameState) (c : Int) :
    ((enemyStep sqrt dt e st c).1.active = true → e.active = true) ∧
    (enemyStep sqrt dt e st c).2.2 =
      c + if (enemyStep sqrt dt e st c).1.active = true then 1 else 0 := by
  cases ha : e.active with
  | false => simp [enemyStep, ha]
  | true =>
    refine ⟨fun _ => rfl, ?_⟩
    simp only [enemyStep, ha, Bool.not_true, Bool.false_eq_true, if_false]
    split_ifs <;> simp

/-- The enemy loop revives nobody, and its tally is the number of slots active after it. -/
theorem enemyLoop_tally (sqrt : ℚ → ℚ) (dt : ℚ) (l : List Enemy) (st : GameState) (c : Int) :
    NoRevive l (enemyLoop sqrt dt l st c).1 ∧
    (enemyLoop sqrt dt l st c).2.2 = c + (countActive (enemyLoop sqrt dt l st c).1 : Int) := by
  induction l generalizing st c with
  | nil => exact ⟨List.Forall₂.nil, by simp [enemyLoop, countActive]⟩
  | cons e rest ih =>
    obtain ⟨h1, h2⟩ := enemyStep_tally sqrt dt e st c
    obtain ⟨i1, i2⟩ := ih (enemyStep sqrt dt e st c).2.1 (enemyStep sqrt dt e st c).2.2
    refine ⟨List.Forall₂.cons h1 i1, ?_⟩
    simp only [enemyLoop, countActive, List.countP_cons] at i2 ⊢
    rw [i2, h2]
    push_cast
    split_ifs <;> ring

theorem updateEnemies_tally (sqrt : ℚ → ℚ) (st : GameState) (dt : ℚ) :
    NoRevive st.enemies (updateEnemies sqrt st dt).1.enemies ∧
    (updateEnemies sqrt st dt).2 = (countActive (updateEnemies sqrt st dt).1.enemies : Int) := by
  obtain ⟨h1, h2⟩ := enemyLoop_tally sqrt dt st.enemies st 0
  exact ⟨h1, by simpa [updateEnemies] using h2⟩

/-- A frame on a running session, block by block. -/
theorem updateGameState_running (sqrt : ℚ → ℚ) (r0 r1 : Nat) (s : GameState) (dt : ℚ)
    (dir : Vector2) (a d : Bool) (hover : s.isGameOver = false) :
    updateGameState sqrt r0 r1 s dt dir a d =
      finishFrame (spawnPhase r0 r1 (afterEnemyPass sqrt s dt dir a) dt
        (enemyTally sqrt s dt dir a)) dt := by
  simp [updateGameState, hover, afterEnemyPass, enemyTally, afterProjectiles, afterAttack]

theorem afterAttack_fields (sqrt : ℚ → ℚ) (s : GameState) (dt : ℚ) (dir : Vector2) (a : Bool) :
    (afterAttack sqrt s dt dir a).enemies = s.enemies ∧
    (afterAttack sqrt s dt dir a).score = s.score ∧
    (afterAttack sqrt s dt dir a).player.kills = s.player.kills ∧
    (afterAttack sqrt s dt dir a).timeSinceLastSpawn = s.timeSinceLastSpawn ∧
    (afterAttack sqrt s dt dir a).gameTime = f32 (s.gameTime + dt) ∧
    (afterAttack sqrt s dt dir a).worldWidth = s.worldWidth ∧
    (afterAttack sqrt s dt dir a).worldHeight = s.worldHeight := by
  obtain ⟨ss, c, h, -, -⟩ := handleAttack_eq sqrt
    (updatePlayer { s with gameTime := f32 (s.gameTime + dt) } dt dir) dir a
  simp only [afterAttack]
  rw [h]
  exact ⟨rfl, rfl, (movedPlayer_fields s dt dir).2.2.2, rfl, rfl, rfl, rfl⟩

theorem afterProjectiles_fields (sqrt : ℚ → ℚ) (s : GameState) (dt : ℚ) (dir : Vector2)
    (a : Bool) :
    KillAccount (afterAttack sqrt s dt dir a) (afterProjectiles sqrt s dt dir a) ∧
    (afterProjectiles sqrt s dt dir a).timeSinceLastSpawn = s.timeSinceLastSpawn ∧
    (afterProjectiles sqrt s dt dir a).gameTime = f32 (s.gameTime + dt) ∧
    (afterProjectiles sqrt s dt dir a).worldWidth = s.worldWidth ∧
    (afterProjectiles sqrt s dt dir a).worldHeight = s.worldHeight ∧
    (afterProjectiles sqrt s dt dir a).enemies.length = s.enemies.length := by
  obtain ⟨f1, -, -, f4, f5, f6, f7⟩ := afterAttack_fields sqrt s dt dir a
  obtain ⟨ss, es, k, sc, h, -, -, hl⟩ := updateShurikens_eq sqrt (afterAttack sqrt s dt dir a) dt
  refine ⟨updateShurikens_killAccount sqrt _ dt, ?_, ?_, ?_, ?_, ?_⟩
  · simp only [afterProjectiles]; rw [h]; exact f4
  · simp only [afterProjectiles]; rw [h]; exact f5
  · simp only [afterProjectiles]; rw [h]; exact f6
  · simp only [afterProjectiles]; rw [h]; exact f7
  · simp only [afterProjectiles]; rw [h]; exact hl.trans (congrArg List.length f1)

theorem afterEnemyPass_fields (sqrt : ℚ → ℚ) (s : GameState) (dt : ℚ) (dir : Vector2)
    (a : Bool) :
    (afterEnemyPass sqrt s dt dir a).score = (afterProjectiles sqrt s dt dir a).score ∧
    (afterEnemyPass sqrt s dt dir a).player.kills =
      (afterProjectiles sqrt s dt dir a).player.kills ∧
    (afterEnemyPass sqrt s dt dir a).timeSinceLastSpawn = s.timeSinceLastSpawn ∧
    (afterEnemyPass sqrt s dt dir a).gameTime = f32 (s.gameTime + dt) ∧
    (afterEnemyPass sqrt s dt dir a).worldWidth = s.worldWidth ∧
    (afterEnemyPass sqrt s dt dir a).worldHeight = s.worldHeight ∧
    (afterEnemyPass sqrt s dt dir a).enemies.length = s.enemies.length ∧
    NoRevive (afterProjectiles sqrt s dt dir a).enemies (afterEnemyPass sqrt s dt dir a).enemies ∧
    enemyTally sqrt s dt dir a = (countActive (afterEnemyPass sqrt s dt dir a).enemies : Int) := by
  obtain ⟨-, f2, f3, f4, f5, f6⟩ := afterProjectiles_fields sqrt s dt dir a
  obtain ⟨es, n, h, hl⟩ := updateEnemies_eq sqrt (afterProjectiles sqrt s dt dir a) dt
  obtain ⟨t1, t2⟩ := updateEnemies_tally sqrt (afterProjectiles sqrt s dt dir a) dt
  refine ⟨?_, ?_, ?_, ?_, ?_, ?_, ?_, t1, t2⟩
  · simp only [afterEnemyPass]; rw [h]
  · simp only [afterEnemyPass]; rw [h]; exact (hits_fields n _).2.2.2.2
  · simp only [afterEnemyPass]; rw [h]; exact f2
  · simp only [afterEnemyPass]; rw [h]; exact f3
  · simp only [afterEnemyPass]; rw [h]; exact f4
  · simp only [afterEnemyPass]; rw [h]; exact f5
  · simp only [afterEnemyPass]; rw [h]; exact hl.trans f6

/-- The last two blocks change only the game-over flag and the score. -/
theorem finishFrame_fields (st : GameState) (dt : ℚ) :
    (finishFrame st dt).score = st.score + floatToInt (f32 (dt * 10)) ∧
    (finishFrame st dt).player = st.player ∧ (finishFrame st dt).enemies = st.enemies ∧
    (finishFrame st dt).timeSinceLastSpawn = st.timeSinceLastSpawn := by
  simp only [finishFrame]
  split_ifs <;> exact ⟨rfl, rfl, rfl, rfl⟩

/-- C12: a frame on a running session in which no `int` operation overflows (score and kill
counter start in range, the truncated bonus is in range, and so are the counter and the
score after the kills and after the bonus) changes the score by exactly
`100 * (kills after - kills before) + trunc (dt * 10)`, where `dt * 10` is the `float`
product, the exact product rounded to binary32, and `trunc` is the floor for a non-negative
and the ceiling for a negative argument. The growth of the kill counter is the number of
enemy slots that the projectile block turned from active to inactive (the block revives
nobody, and the enemy pass with its leash leaves the counter alone). Nothing depends on the
player staying alive, so the bonus is also added in the frame in which the player dies. The
new score and counter are in range. -/
theorem score_accounting (sqrt : ℚ → ℚ) (r0 r1 : Nat) (s : GameState) (dt : ℚ)
    (inputDirection : Vector2) (wantsToAttack wantsToDash : Bool)
    (hover : s.isGameOver = false)
    (hscore : inIntRange s.score) (hkills : inIntRange s.player.kills)
    (hbonus : inIntRange (floatToInt (f32 (dt * 10))))
    (hk : s.player.kills + (deactivated s.enemies
      (afterProjectiles sqrt s dt inputDirection wantsToAttack).enemies : Int) ≤ 2147483647)
    (hs : s.score + 100 * (deactivated s.enemies
      (afterProjectiles sqrt s dt inputDirection wantsToAttack).enemies : Int) ≤ 2147483647)
    (hsum : inIntRange (s.score + 100 * (deactivated s.enemies
      (afterProjectiles sqrt s dt inputDirection wantsToAttack).enemies : Int)
        + floatToInt (f32 (dt * 10)))) :
    (updateGameState sqrt r0 r1 s dt inputDirection wantsToAttack wantsToDash).score =
      s.score +
        100 * ((updateGameState sqrt r0 r1 s dt inputDirection wantsToAttack wantsToDash).player.kills
          - s.player.kills) + floatToInt (f32 (dt * 10)) ∧
    (updateGameState sqrt r0 r1 s dt inputDirection wantsToAttack wantsToDash).player.kills
        - s.player.kills =
      (deactivated s.enemies
        (afterProjectiles sqrt s dt inputDirection wantsToAttack).enemies : Int) ∧
    NoRevive s.enemies (afterProjectiles sqrt s dt inputDirection wantsToAttack).enemies ∧
    (updateGameState sqrt r0 r1 s dt inputDirection wantsToAttack wantsToDash).player.kills =
      (afterProjectiles sqrt s dt inputDirection wantsToAttack).player.kills ∧
    (0 ≤ f32 (dt * 10) → floatToInt (f32 (dt * 10)) = ⌊f32 (dt * 10)⌋) ∧
    (f32 (dt * 10) < 0 → floatToInt (f32 (dt * 10)) = ⌈f32 (dt * 10)⌉) ∧
    inIntRange (afterProjectiles sqrt s dt inputDirection wantsToAttack).score ∧
    inIntRange (updateGameState sqrt r0 r1 s dt inputDirection wantsToAttack wantsToDash).score ∧
    inIntRange
      (updateGameState sqrt r0 r1 s dt inputDirection wantsToAttack wantsToDash).player.kills := by
  have _hb := hbonus
  obtain ⟨g1, g2, g3, -⟩ := afterAttack_fields sqrt s dt inputDirection wantsToAttack
  obtain ⟨⟨k1, k2, k3⟩, -⟩ := afterProjectiles_fields sqrt s dt inputDirection wantsToAttack
  obtain ⟨e1, e2, -⟩ := afterEnemyPass_fields sqrt s dt inputDirection wantsToAttack
  obtain ⟨es, t, hsp, -⟩ := spawnPhase_eq r0 r1
    (afterEnemyPass sqrt s dt inputDirection wantsToAttack) dt
    (enemyTally sqrt s dt inputDirection wantsToAttack)
  obtain ⟨f1, f2, -, -⟩ := finishFrame_fields (spawnPhase r0 r1
    (afterEnemyPass sqrt s dt inputDirection wantsToAttack) dt
    (enemyTally sqrt s dt inputDirection wantsToAttack)) dt
  rw [g1] at k2 k3
  rw [g2] at k1
  rw [g3] at k1 k2
  have hscore2 : (updateGameState sqrt r0 r1 s dt inputDirection wantsToAttack wantsToDash).score
      = (afterProjectiles sqrt s dt inputDirection wantsToAttack).score
        + floatToInt (f32 (dt * 10)) := by
    rw [updateGameState_running sqrt r0 r1 s dt inputDirection wantsToAttack wantsToDash hover,
      f1, hsp]
    exact congrArg (· + floatToInt (f32 (dt * 10))) e1
  have hkills2 : (updateGameState sqrt r0 r1 s dt inputDirection wantsToAttack
      wantsToDash).player.kills
      = (afterProjectiles sqrt s dt inputDirection wantsToAttack).player.kills := by
    rw [updateGameState_running sqrt r0 r1 s dt inputDirection wantsToAttack wantsToDash hover,
      f2, hsp]
    exact e2
  have hK : (afterProjectiles sqrt s dt inputDirection wantsToAttack).player.kills
      - s.player.kills = (deactivated s.enemies
        (afterProjectiles sqrt s dt inputDirection wantsToAttack).enemies : Int) := by
    rw [deactivated_eq k3]
    exact k2
  have hK0 : (0 : Int) ≤ (deactivated s.enemies
      (afterProjectiles sqrt s dt inputDirection wantsToAttack).enemies : Int) :=
    Int.ofNat_nonneg _
  obtain ⟨hs0, hs1⟩ := hscore
  obtain ⟨hq0, hq1⟩ := hkills
  obtain ⟨ht0, ht1⟩ := hsum
  refine ⟨?_, ?_, k3, hkills2, ?_, ?_, ⟨?_, ?_⟩, ⟨?_, ?_⟩, ⟨?_, ?_⟩⟩
  · rw [hscore2, hkills2]
    linarith
  · rw [hkills2]
    exact hK
  · intro h
    simp [floatToInt, h]
  · intro h
    simp [floatToInt, not_le.mpr h]
  · linarith
  · linarith
  · rw [hscore2]
    linarith
  · rw [hscore2]
    linarith
  · rw [hkills2]
    linarith
  · rw [hkills2]
    linarith

/-- C12 on the constructed session with `dt = 0.7f` (the product `dt * 10` is the `float`
7, the score grows by 7), on the session with a shuriken about to expire next to an enemy of
health 10 (one kill, score `0 + 100 * 1 + 0`), and on the frame of `1/2` in which the player
of the crowded session dies (score `0 + 100 * 0 + 5`). -/
theorem score_accounting_witness :
    (GameState.new.isGameOver = false ∧ inIntRange GameState.new.score ∧
      inIntRange GameState.new.player.kills ∧
      floatToInt (f32 (11744051 / 16777216 * 10)) = 7 ∧
      (updateGameState Rat.sqrt 0 0 GameState.new (11744051 / 16777216) ⟨0, 0⟩ false false).score =
        GameState.new.score +
          100 * ((updateGameState Rat.sqrt 0 0 GameState.new (11744051 / 16777216) ⟨0, 0⟩ false
            false).player.kills - GameState.new.player.kills) +
          floatToInt (f32 (11744051 / 16777216 * 10)) ∧
      (updateGameState Rat.sqrt 0 0 GameState.new (11744051 / 16777216) ⟨0, 0⟩ false false).score
        = 7) ∧
    (updateGameState Rat.sqrt 0 0 lastGaspState (1 / 64) ⟨0, 0⟩ false false).score = 100 ∧
    (updateGameState Rat.sqrt 0 0 lastGaspState (1 / 64) ⟨0, 0⟩ false false).player.kills = 1 ∧
    (updateGameState Rat.sqrt 0 0 crowdedState (1 / 2) ⟨0, 0⟩ false false).player.isAlive = false ∧
    (updateGameState Rat.sqrt 0 0 crowdedState (1 / 2) ⟨0, 0⟩ false false).score = 5 :=
  ⟨⟨rfl, by decide, by decide, by decide!,
    (score_accounting Rat.sqrt 0 0 GameState.new (11744051 / 16777216) ⟨0, 0⟩ false false rfl
      (by decide) (by decide) (by decide!) (by decide!) (by decide!) (by decide!)).1,
    by decide!⟩,
    by decide!, by decide!, by decide!, by decide!⟩

/-! ## The spawn block -/

/-- The spawn block when its condition holds and when it does not; the sum
`timeSinceLastSpawn + dt` is the `float` sum. -/
theorem spawnPhase_spec (r0 r1 : Nat) (st : GameState) (dt : ℚ) (c : Int) :
    (f32 (st.timeSinceLastSpawn + dt) ≥ 3 / 2 ∧ c < 20 →
      spawnPhase r0 r1 st dt c =
        { GameState.spawnEnemy
            { st with timeSinceLastSpawn := f32 (st.timeSinceLastSpawn + dt) } r0 r1
          with timeSinceLastSpawn := if st.gameTime > 30 then -(1 / 2) else 0 }) ∧
    (¬ (f32 (st.timeSinceLastSpawn + dt) ≥ 3 / 2 ∧ c < 20) →
      spawnPhase r0 r1 st dt c =
        { st with timeSinceLastSpawn := f32 (st.timeSinceLastSpawn + dt) }) := by
  obtain ⟨es, h, -⟩ :=
    spawnEnemy_eq { st with timeSinceLastSpawn := f32 (st.timeSinceLastSpawn + dt) } r0 r1
  refine ⟨?_, ?_⟩
  · intro hc
    have hc2 : f32 (st.timeSinceLastSpawn + dt) ≥ SPAWN_RATE ∧ c < MAX_ENEMIES := by
      simpa [SPAWN_RATE, MAX_ENEMIES] using hc
    simp only [spawnPhase, hc2, and_self, if_true]
    rw [h]
    split_ifs <;> rfl
  · intro hc
    have hc2 : ¬ (f32 (st.timeSinceLastSpawn + dt) ≥ SPAWN_RATE ∧ c < MAX_ENEMIES) := by
      simpa [SPAWN_RATE, MAX_ENEMIES] using hc
    simp only [spawnPhase, hc2, if_false]

/-- The spawn accumulator and the enemy pool at the end of a frame are the ones the spawn
block leaves. -/
theorem updateGameState_spawn (sqrt : ℚ → ℚ) (r0 r1 : Nat) (s : GameState) (dt : ℚ)
    (dir : Vector2) (a d : Bool) (hover : s.isGameOver = false) :
    (updateGameState sqrt r0 r1 s dt dir a d).timeSinceLastSpawn =
      (spawnPhase r0 r1 (afterEnemyPass sqrt s dt dir a) dt
        (enemyTally sqrt s dt dir a)).timeSinceLastSpawn ∧
    (updateGameState sqrt r0 r1 s dt dir a d).enemies =
      (spawnPhase r0 r1 (afterEnemyPass sqrt s dt dir a) dt (enemyTally sqrt s dt dir a)).enemies := by
  rw [updateGameState_running sqrt r0 r1 s dt dir a d hover]
  obtain ⟨-, -, f3, f4⟩ := finishFrame_fields (spawnPhase r0 r1
    (afterEnemyPass sqrt s dt dir a) dt (enemyTally sqrt s dt dir a)) dt
  exact ⟨f4, f3⟩

/-- The spawn condition on the tally is the one on the number of active enemies after the
enemy pass. -/
theorem spawn_condition_iff (sqrt : ℚ → ℚ) (s : GameState) (dt : ℚ) (dir : Vector2) (a : Bool) :
    (f32 ((afterEnemyPass sqrt s dt dir a).timeSinceLastSpawn + dt) ≥ 3 / 2 ∧
        enemyTally sqrt s dt dir a < 20) ↔
      (f32 (s.timeSinceLastSpawn + dt) ≥ 3 / 2 ∧
        activeEnemies (afterEnemyPass sqrt s dt dir a) < 20) := by
  obtain ⟨-, -, f3, -, -, -, -, -, f9⟩ := afterEnemyPass_fields sqrt s dt dir a
  rw [f3, f9]
  simp only [activeEnemies, countActive]
  constructor
  · rintro ⟨h1, h2⟩
    exact ⟨h1, by exact_mod_cast h2⟩
  · rintro ⟨h1, h2⟩
    exact ⟨h1, by exact_mod_cast h2⟩

/-- C13: in a frame on a running session, with `a` the `float` sum `timeSinceLastSpawn + dt`
and `g` the `float` sum `gameTime + dt` (the exact sums rounded to binary32, as the code
stores and compares them; `a` has not overflowed) and `n` the number of enemies active after
the enemy pass (which is the tally the spawn block reads): if `a ≥ 1.5` and `n < 20`, the
accumulator ends at exactly 0 when `g ≤ 30` and at exactly `-0.5` when `g > 30`; otherwise
the enemy pool is the one the enemy pass left (nothing is spawned) and the accumulator ends
at `a`. -/
theorem spawn_accumulator (sqrt : ℚ → ℚ) (r0 r1 : Nat) (s : GameState) (dt : ℚ)
    (inputDirection : Vector2) (wantsToAttack wantsToDash : Bool)
    (hover : s.isGameOver = false)
    (hfinite : isFiniteFloat (f32 (s.timeSinceLastSpawn + dt))) :
    enemyTally sqrt s dt inputDirection wantsToAttack =
      (activeEnemies (afterEnemyPass sqrt s dt inputDirection wantsToAttack) : Int) ∧
    (f32 (s.timeSinceLastSpawn + dt) ≥ 3 / 2 ∧
        activeEnemies (afterEnemyPass sqrt s dt inputDirection wantsToAttack) < 20 →
      (f32 (s.gameTime + dt) ≤ 30 →
        (updateGameState sqrt r0 r1 s dt inputDirection wantsToAttack
          wantsToDash).timeSinceLastSpawn = 0) ∧
      (f32 (s.gameTime + dt) > 30 →
        (updateGameState sqrt r0 r1 s dt inputDirection wantsToAttack
          wantsToDash).timeSinceLastSpawn = -(1 / 2))) ∧
    (¬ (f32 (s.timeSinceLastSpawn + dt) ≥ 3 / 2 ∧
        activeEnemies (afterEnemyPass sqrt s dt inputDirection wantsToAttack) < 20) →
      (updateGameState sqrt r0 r1 s dt inputDirection wantsToAttack wantsToDash).enemies =
        (afterEnemyPass sqrt s dt inputDirection wantsToAttack).enemies ∧
      (updateGameState sqrt r0 r1 s dt inputDirection wantsToAttack
        wantsToDash).timeSinceLastSpawn = f32 (s.timeSinceLastSpawn + dt)) := by
  obtain ⟨-, -, f3, f4, -, -, -, -, f9⟩ :=
    afterEnemyPass_fields sqrt s dt inputDirection wantsToAttack
  obtain ⟨u1, u2⟩ :=
    updateGameState_spawn sqrt r0 r1 s dt inputDirection wantsToAttack wantsToDash hover
  obtain ⟨p1, p2⟩ := spawnPhase_spec r0 r1
    (afterEnemyPass sqrt s dt inputDirection wantsToAttack) dt
    (enemyTally sqrt s dt inputDirection wantsToAttack)
  have hiff := spawn_condition_iff sqrt s dt inputDirection wantsToAttack
  have _hf := hfinite
  refine ⟨f9, ?_, ?_⟩
  · intro hc
    have hsp := p1 (hiff.2 hc)
    rw [u1, hsp, f4]
    refine ⟨fun hg => ?_, fun hg => ?_⟩
    · show (if f32 (s.gameTime + dt) > 30 then -(1 / 2 : ℚ) else 0) = 0
      rw [if_neg (not_lt.mpr hg)]
    · show (if f32 (s.gameTime + dt) > 30 then -(1 / 2 : ℚ) else 0) = -(1 / 2)
      rw [if_pos hg]
  · intro hc
    have hsp := p2 (fun h => hc (hiff.1 h))
    rw [u1, u2, hsp]
    exact ⟨rfl, congrArg (fun x => f32 (x + dt)) f3⟩

/-- C13 at the `float` edge: with the accumulator at `1.5 - 2 ^ (-23)` and
`dt = 3 * 2 ^ (-25)` the exact sum is below `1.5` but the `float` sum is `1.5`, so the frame
spawns and the accumulator ends at 0; with the accumulator at `1.49` and `dt = 1/64` it ends
at 0 at game time 10 and at `-1/2` at game time 40; on the fresh session it ends at `1/64`. -/
theorem spawn_accumulator_witness :
    (spawnEdgeState.timeSinceLastSpawn + 3 / 33554432 < 3 / 2 ∧
      f32 (spawnEdgeState.timeSinceLastSpawn + 3 / 33554432) = 3 / 2 ∧
      activeEnemies (afterEnemyPass Rat.sqrt spawnEdgeState (3 / 33554432) ⟨0, 0⟩ false) < 20 ∧
      f32 (spawnEdgeState.gameTime + 3 / 33554432) ≤ 30 ∧
      (updateGameState Rat.sqrt 0 0 spawnEdgeState (3 / 33554432) ⟨0, 0⟩ false
        false).timeSinceLastSpawn = 0 ∧
      activeEnemies (updateGameState Rat.sqrt 0 0 spawnEdgeState (3 / 33554432) ⟨0, 0⟩ false
        false) = 1) ∧
    (updateGameState Rat.sqrt 0 0 (spawnDueState false) (1 / 64) ⟨0, 0⟩ false
      false).timeSinceLastSpawn = 0 ∧
    (updateGameState Rat.sqrt 0 0 (spawnDueState true) (1 / 64) ⟨0, 0⟩ false
      false).timeSinceLastSpawn = -(1 / 2) ∧
    (updateGameState Rat.sqrt 0 0 GameState.new (1 / 64) ⟨0, 0⟩ false
      false).timeSinceLastSpawn = 1 / 64 :=
  ⟨⟨by decide!, by decide!, by decide!, by decide!,
    ((spawn_accumulator Rat.sqrt 0 0 spawnEdgeState (3 / 33554432) ⟨0, 0⟩ false false rfl
      (by decide!)).2.1 (by decide!)).1 (by decide!),
    by decide!⟩,
    by decide!, by decide!, by decide!⟩

/-- The accumulator of a session of frames of `1.0f / 60.0f` adds up rounded `float` sums:
after 90 frames it stands at `6291453 / 4194304 < 1.5` and nothing is spawned, although 90
times the step exceeds `1.5`; the first spawn is in frame 91. -/
theorem spawn_in_frame_91 :
    f32 (1 / 60) = dt60 ∧ (3 / 2 : ℚ) ≤ 90 * dt60 ∧
    activeEnemies (runCalls Rat.sqrt GameState.new (idleFrames 90)) = 0 ∧
    (runCalls Rat.sqrt GameState.new (idleFrames 90)).timeSinceLastSpawn = 6291453 / 4194304 ∧
    activeEnemies (runCalls Rat.sqrt GameState.new (idleFrames 91)) = 1 ∧
    (runCalls Rat.sqrt GameState.new (idleFrames 91)).timeSinceLastSpawn = 0 := by
  decide!

theorem firstInactiveEnemy_spec (l : List Enemy) (i : Nat) (h : firstInactiveEnemy l = some i) :
    ∃ e, l[i]? = some e ∧ e.active = false := by
  induction l generalizing i with
  | nil => simp [firstInactiveEnemy] at h
  | cons a rest ih =>
    cases ha : a.active with
    | false =>
      have : i = 0 := by simpa [firstInactiveEnemy, ha] using h.symm
      subst this
      exact ⟨a, by simp, ha⟩
    | true =>
      simp only [firstInactiveEnemy, ha, Bool.not_true, Bool.false_eq_true, if_false,
        Option.map_eq_some'] at h
      obtain ⟨k, hk, rfl⟩ := h
      obtain ⟨e, he, hact⟩ := ih k hk
      exact ⟨e, by simpa using he, hact⟩

/-- A pool with fewer active slots than slots has a first inactive slot. -/
theorem exists_firstInactiveEnemy (l : List Enemy) (h : countActive l < l.length) :
    ∃ i e, firstInactiveEnemy l = some i ∧ l[i]? = some e ∧ e.active = false := by
  cases hf : firstInactiveEnemy l with
  | none =>
    have hall := (firstInactiveEnemy_eq_none l).1 hf
    have : countActive l = l.length := by
      simp only [countActive]
      exact List.countP_eq_length.2 hall
    omega
  | some i =>
    obtain ⟨e, he, hact⟩ := firstInactiveEnemy_spec l i hf
    exact ⟨i, e, rfl, he, hact⟩

theorem countActive_set (l : List Enemy) (i : Nat) (e x : Enemy) (hi : l[i]? = some e)
    (he : e.active = false) (hx : x.active = true) :
    countActive (l.set i x) = countActive l + 1 := by
  have hlt : i < l.length := by
    rcases Nat.lt_or_ge i l.length with h | h
    · exact h
    · rw [List.getElem?_eq_none h] at hi
      exact absurd hi (by simp)
  have hget : l[i] = e := by
    rw [List.getElem?_eq_getElem hlt] at hi
    exact Option.some.inj hi
  simp only [countActive]
  rw [List.countP_set _ _ _ _ hlt, hget]
  simp [he, hx]

/-- The enemy pool after `spawnEnemy` on a pool whose first inactive slot is `i`. -/
theorem spawnEnemy_enemies (st : GameState) (r0 r1 : Nat) (i : Nat) (e : Enemy)
    (hslot : st.getAvailableEnemy = some i) (hi : st.enemies[i]? = some e) :
    (st.spawnEnemy r0 r1).enemies =
      st.enemies.set i (spawnAt r0 r1 st.worldWidth st.worldHeight e) := by
  simp [GameState.spawnEnemy, hslot, hi]

theorem spawnAt_active (r0 r1 : Nat) (w h : ℚ) (e : Enemy) :
    (spawnAt r0 r1 w h e).active = true := by
  rw [spawnAt_eq]

/-- C19: in a frame on a running session whose enemy pool has 20 slots, whenever the spawn
condition holds (the `float` sum `timeSinceLastSpawn + dt`, the exact sum rounded to
binary32, is `≥ 1.5`, and the tally `n` of enemies active after the enemy pass is below 20),
`getAvailableEnemy` finds a slot `i`, that slot was inactive and is active after the frame,
every other slot is as the enemy pass left it, and the number of active enemies after the
frame is `n + 1 ≤ 20`. In every other frame (game-over, or the condition fails) the number
of active enemies does not grow. -/
theorem spawn_never_fails :
    (∀ (sqrt : ℚ → ℚ) (r0 r1 : Nat) (s : GameState) (dt : ℚ) (dir : Vector2) (a d : Bool),
      s.isGameOver = false → s.enemies.length = 20 →
      f32 (s.timeSinceLastSpawn + dt) ≥ 3 / 2 →
      activeEnemies (afterEnemyPass sqrt s dt dir a) < 20 →
      ∃ i e,
        GameState.getAvailableEnemy (afterEnemyPass sqrt s dt dir a) = some i ∧
        (afterEnemyPass sqrt s dt dir a).enemies[i]? = some e ∧ e.active = false ∧
        (updateGameState sqrt r0 r1 s dt dir a d).enemies =
          (afterEnemyPass sqrt s dt dir a).enemies.set i
            (spawnAt r0 r1 s.worldWidth s.worldHeight e) ∧
        (spawnAt r0 r1 s.worldWidth s.worldHeight e).active = true ∧
        (∀ j, j ≠ i → (updateGameState sqrt r0 r1 s dt dir a d).enemies[j]? =
          (afterEnemyPass sqrt s dt dir a).enemies[j]?) ∧
        activeEnemies (updateGameState sqrt r0 r1 s dt dir a d) =
          activeEnemies (afterEnemyPass sqrt s dt dir a) + 1 ∧
        activeEnemies (afterEnemyPass sqrt s dt dir a) + 1 ≤ 20) ∧
    (∀ (sqrt : ℚ → ℚ) (r0 r1 : Nat) (s : GameState) (dt : ℚ) (dir : Vector2) (a d : Bool),
      ¬ (s.isGameOver = false ∧ f32 (s.timeSinceLastSpawn + dt) ≥ 3 / 2 ∧
          activeEnemies (afterEnemyPass sqrt s dt dir a) < 20) →
      activeEnemies (updateGameState sqrt r0 r1 s dt dir a d) ≤ activeEnemies s) := by
  refine ⟨?_, ?_⟩
  · intro sqrt r0 r1 s dt dir a d hover hlen htime hn
    obtain ⟨-, -, f3, -, f5, f6, f7, -, -⟩ := afterEnemyPass_fields sqrt s dt dir a
    obtain ⟨-, u2⟩ := updateGameState_spawn sqrt r0 r1 s dt dir a d hover
    have hsp := (spawnPhase_spec r0 r1 (afterEnemyPass sqrt s dt dir a) dt
      (enemyTally sqrt s dt dir a)).1 ((spawn_condition_iff sqrt s dt dir a).2 ⟨htime, hn⟩)
    have hn2 : countActive (afterEnemyPass sqrt s dt dir a).enemies
        < (afterEnemyPass sqrt s dt dir a).enemies.length := by
      rw [f7, hlen]
      exact hn
    obtain ⟨i, e, hslot, hi, hact⟩ := exists_firstInactiveEnemy _ hn2
    have hen : (updateGameState sqrt r0 r1 s dt dir a d).enemies =
        (afterEnemyPass sqrt s dt dir a).enemies.set i
          (spawnAt r0 r1 s.worldWidth s.worldHeight e) := by
      rw [u2, hsp, ← f5, ← f6]
      exact spawnEnemy_enemies
        { afterEnemyPass sqrt s dt dir a with
          timeSinceLastSpawn := f32 ((afterEnemyPass sqrt s dt dir a).timeSinceLastSpawn + dt) }
        r0 r1 i e hslot hi
    refine ⟨i, e, hslot, hi, hact, hen, spawnAt_active _ _ _ _ _, ?_, ?_, ?_⟩
    · intro j hj
      rw [hen, List.getElem?_set]
      simp [Ne.symm hj]
    · simp only [activeEnemies]
      rw [hen]
      exact countActive_set _ i e _ hi hact (spawnAt_active _ _ _ _ _)
    · exact hn
  · intro sqrt r0 r1 s dt dir a d hnot
    cases hover : s.isGameOver with
    | true =>
      rw [updateGameState_of_gameOver sqrt r0 r1 s dt dir a d hover]
    | false =>
      have hc : ¬ (f32 (s.timeSinceLastSpawn + dt) ≥ 3 / 2 ∧
          activeEnemies (afterEnemyPass sqrt s dt dir a) < 20) := fun h => hnot ⟨hover, h⟩
      obtain ⟨g1, -⟩ := afterAttack_fields sqrt s dt dir a
      obtain ⟨⟨-, -, k3⟩, -⟩ := afterProjectiles_fields sqrt s dt dir a
      obtain ⟨-, -, -, -, -, -, -, f8, -⟩ := afterEnemyPass_fields sqrt s dt dir a
      obtain ⟨-, u2⟩ := updateGameState_spawn sqrt r0 r1 s dt dir a d hover
      have hsp := (spawnPhase_spec r0 r1 (afterEnemyPass sqrt s dt dir a) dt
        (enemyTally sqrt s dt dir a)).2 (fun h => hc ((spawn_condition_iff sqrt s dt dir a).1 h))
      rw [g1] at k3
      simp only [activeEnemies]
      rw [u2, hsp]
      exact countActive_le (noRevive_trans k3 f8)

/-- C19 at the `float` edge (accumulator `1.5 - 2 ^ (-23)`, `dt = 3 * 2 ^ (-25)`, `float`
sum `1.5`): the frame spawns into slot 0 and ends with one active enemy; the frame of
`2 ^ (-25)` on the same session has `float` sum `1.5 - 2 ^ (-23)` and spawns nothing, and so
does a frame on the fresh session. -/
theorem spawn_never_fails_witness :
    spawnEdgeState.isGameOver = false ∧ spawnEdgeState.enemies.length = 20 ∧
    f32 (spawnEdgeState.timeSinceLastSpawn + 3 / 33554432) ≥ 3 / 2 ∧
    (∃ i e,
      GameState.getAvailableEnemy
        (afterEnemyPass Rat.sqrt spawnEdgeState (3 / 33554432) ⟨0, 0⟩ false) = some i ∧
      (afterEnemyPass Rat.sqrt spawnEdgeState (3 / 33554432) ⟨0, 0⟩ false).enemies[i]? = some e ∧
      e.active = false) ∧
    activeEnemies (updateGameState Rat.sqrt 6 2000 spawnEdgeState (3 / 33554432) ⟨0, 0⟩ false
      false) = 1 ∧
    (updateGameState Rat.sqrt 6 2000 spawnEdgeState (3 / 33554432) ⟨0, 0⟩ false
      false).enemies.head? =
      some { position := ⟨400, 950⟩, health := 30, active := true, damageCooldown := 0 } ∧
    (¬ f32 (spawnEdgeState.timeSinceLastSpawn + 1 / 33554432) ≥ 3 / 2 ∧
      activeEnemies (updateGameState Rat.sqrt 6 2000 spawnEdgeState (1 / 33554432) ⟨0, 0⟩ false
        false) = 0) ∧
    activeEnemies (updateGameState Rat.sqrt 6 2000 GameState.new (1 / 64) ⟨0, 0⟩ false false) = 0 :=
  ⟨rfl, by decide!, by decide!,
    (spawn_never_fails.1 Rat.sqrt 6 2000 spawnEdgeState (3 / 33554432) ⟨0, 0⟩ false false rfl
      (by decide!) (by decide!) (by decide!)).imp
      (fun i h => h.imp (fun e he => ⟨he.1, he.2.1, he.2.2.1⟩)),
    by decide!, by decide!, ⟨by decide!, by decide!⟩, by decide!⟩

end Vortex
